import Mathlib

/-
  Verification of the abstracted-fs traversal/transfer engine.

  The Rust sources (src/ops.rs, src/lib.rs, src/util.rs, src/unix.rs,
  src/error.rs, src/data.rs) are shallowly embedded below.  Backends are
  modelled as records of response functions (the engine only observes
  backend behaviour through the returned values), and every engine
  function additionally returns the list of backend calls it issued, in
  order, so that temporal claims can be stated about the call trace.
  Rust u64/u32 values are modelled as Nat; the unbounded `while` loops of
  the engine are given a fuel parameter, with fuel exhaustion modelled by
  the dedicated error value `Err.outOfFuel` (which no source error maps
  to and which `is_already_exists_error` rejects).
-/

namespace AFS

/-- data.rs: `FileType` (closed enumeration). -/
inductive FileType where
  | File
  | Dir
  | Symlink
  | Socket
  | Fifo
  | CharDevice
  | BlockDevice
  | Unknown
deriving DecidableEq, Repr

/-- std::io::ErrorKind, restricted to the distinctions error.rs makes:
`is_already_exists_error` only tests for `AlreadyExists`. -/
inductive IOErrorKind where
  | alreadyExists
  | notFound
  | other
deriving DecidableEq, Repr

/-- error.rs: `Error`.  Protocol/trash payloads are abstracted to a Nat
code; `outOfFuel` is an artefact of the embedding marking divergence of
the source's unbounded loops. -/
inductive Err where
  | StdIo (kind : IOErrorKind)
  | FTP (code : Nat)
  | SFTP (code : Nat)
  | Trash (code : Nat)
  | CannotCopyOrMoveFileType (t : FileType)
  | FileNonexistent (path : String)
  | FileAlreadyExists (path : String)
  | NoFileName
  | NotUtf8
  | Unsupported (operation platform : String)
  | outOfFuel
deriving DecidableEq, Repr

/-- error.rs: `Error::is_already_exists_error`. -/
def Err.is_already_exists_error : Err → Bool
  | .FileAlreadyExists _ => true
  | .StdIo .alreadyExists => true
  | _ => false

/-- unix.rs: `UnixFileActions`. -/
structure UnixFileActions where
  read : Bool
  write : Bool
  execute : Bool
deriving DecidableEq, Repr

/-- unix.rs: `UnixFilePermissions`. -/
structure UnixFilePermissions where
  owner : UnixFileActions
  group : UnixFileActions
  other : UnixFileActions
deriving DecidableEq, Repr

/-- unix.rs: `From<UnixFilePermissionFlags> for UnixFilePermissions`.
The flags value is a u32 bit set; `contains(OWNER_READ)` is bit 8 (0o400),
and so on.  NOTE: the source reads `OWNER_WRITE` for `group.write`,
`OWNER_EXEC` for `group.execute` and `OWNER_EXEC` for `other.execute`;
this embedding reproduces that faithfully. -/
def permissionsOfFlags (value : Nat) : UnixFilePermissions :=
  { owner :=
      { read := value.testBit 8
        write := value.testBit 7
        execute := value.testBit 6 }
    group :=
      { read := value.testBit 5
        write := value.testBit 7
        execute := value.testBit 6 }
    other :=
      { read := value.testBit 2
        write := value.testBit 1
        execute := value.testBit 6 } }

/-- unix.rs: `From<UnixFilePermissions> for UnixFilePermissionFlags`
(this direction uses the group/other flags correctly). -/
def flagsOfPermissions (p : UnixFilePermissions) : Nat :=
  (cond p.owner.read 0o400 0) + (cond p.owner.write 0o200 0) +
  (cond p.owner.execute 0o100 0) + (cond p.group.read 0o40 0) +
  (cond p.group.write 0o20 0) + (cond p.group.execute 0o10 0) +
  (cond p.other.read 0o4 0) + (cond p.other.write 0o2 0) +
  (cond p.other.execute 0o1 0)

/-- unix.rs: `From<u32> for UnixFilePermissions`:
`from_bits_truncate(mode)` keeps only the nine defined bits (0o777). -/
def permissionsOfU32 (mode : Nat) : UnixFilePermissions :=
  permissionsOfFlags (mode % 2 ^ 32 &&& 0o777)

/-- unix.rs: `From<UnixFilePermissions> for u32`. -/
def u32OfPermissions (p : UnixFilePermissions) : Nat :=
  flagsOfPermissions p

/-- data.rs: `Metadata`.  Timestamps are opaque (Nat-coded). -/
structure Metadata where
  type : FileType
  modified : Option Nat := none
  accessed : Option Nat := none
  created : Option Nat := none
  size : Option Nat := none
  readonly : Bool := false
  unix_file_permissions : Option UnixFilePermissions := none
deriving DecidableEq, Repr

/-- data.rs: `File`. -/
structure File where
  path : String
  name : String
  extension : Option String := none
  metadata : Metadata
deriving DecidableEq, Repr

/-- Splitting a character list at every `'/'`, keeping empty segments —
the behaviour of Rust's `str::split` with a one-character separator (and
of `String.splitOn "/"`, re-implemented by structural recursion so that
it evaluates inside the kernel). -/
def splitSlash : List Char → List (List Char)
  | [] => [[]]
  | c :: rest =>
    if c = '/' then [] :: splitSlash rest
    else
      match splitSlash rest with
      | s :: ss => (c :: s) :: ss
      | [] => [[c]]

/-- util.rs: `extract_lowest_path_item` (MAIN_SEPARATOR is "/"): the
last non-empty `/`-separated segment, with "/" itself passed through.
The Rust `.last().unwrap()` panics when the path is all separators and
not exactly "/"; that case is modelled as "". -/
def extract_lowest_path_item (path : String) : String :=
  if path = "/" then path
  else
    ((((splitSlash path.data).map String.mk).filter (fun s => s ≠ "")).getLast?).getD ""

/-- Which of the two backends of a cross-backend operation a call went
to.  Single-backend operations use `fromB` throughout. -/
inductive Side where
  | fromB
  | toB
deriving DecidableEq, Repr

/-- One backend call, as recorded in an engine trace. -/
inductive Ev where
  | qexists (s : Side) (p : String)
  | getFileType (s : Side) (p : String)
  | retrieveFiles (s : Side) (ps : List String)
  | retrieveFileContent (s : Side) (p : String)
  | readDir (s : Side) (p : String)
  | createFile (s : Side) (p : String) (overwrite : Bool) (contents : Option (List Nat))
  | createDir (s : Side) (p : String)
  | moveFile (s : Side) (src dst : String) (overwrite : Bool)
  | copyFile (s : Side) (src dst : String) (overwrite : Bool)
  | removeFile (s : Side) (p : String)
  | removeDir (s : Side) (p : String)
deriving DecidableEq, Repr

deriving instance DecidableEq for Except

/-- Result of an engine computation: the backend calls issued, in order,
and the outcome. -/
abbrev Res (α : Type) := List Ev × Except Err α

/-- Sequencing: on success continue (concatenating traces), on error
stop with the trace so far.  This is Rust's `?` operator. -/
def bindE {α β : Type} (x : Res α) (f : α → Res β) : Res β :=
  match x with
  | (t, .ok a) => ((t ++ (f a).1 : List Ev), (f a).2)
  | (t, .error e) => (t, .error e)

/-- lib.rs: the `FSBackend` capability contract, as response functions.
Only the operations the engine algorithms use are modelled. -/
structure Backend where
  existsQ : String → Except Err Bool
  get_file_type : String → Except Err FileType
  retrieve_files : List String → Except Err (List File)
  retrieve_file_content : String → Except Err (List Nat)
  read_dir : String → Except Err (List File)
  create_file : String → Bool → Option (List Nat) → Except Err Unit
  create_dir : String → Except Err Unit
  move_file : String → String → Bool → Except Err Unit
  copy_file : String → String → Bool → Except Err Unit
  remove_file : String → Except Err Unit
  remove_dir : String → Except Err Unit

def Backend.existsT (b : Backend) (s : Side) (p : String) : Res Bool :=
  ([.qexists s p], b.existsQ p)

def Backend.getFileTypeT (b : Backend) (s : Side) (p : String) : Res FileType :=
  ([.getFileType s p], b.get_file_type p)

def Backend.retrieveFilesT (b : Backend) (s : Side) (ps : List String) : Res (List File) :=
  ([.retrieveFiles s ps], b.retrieve_files ps)

def Backend.retrieveFileContentT (b : Backend) (s : Side) (p : String) : Res (List Nat) :=
  ([.retrieveFileContent s p], b.retrieve_file_content p)

def Backend.readDirT (b : Backend) (s : Side) (p : String) : Res (List File) :=
  ([.readDir s p], b.read_dir p)

def Backend.createFileT (b : Backend) (s : Side) (p : String) (ow : Bool)
    (contents : Option (List Nat)) : Res Unit :=
  ([.createFile s p ow contents], b.create_file p ow contents)

def Backend.createDirT (b : Backend) (s : Side) (p : String) : Res Unit :=
  ([.createDir s p], b.create_dir p)

def Backend.moveFileT (b : Backend) (s : Side) (src dst : String) (ow : Bool) : Res Unit :=
  ([.moveFile s src dst ow], b.move_file src dst ow)

def Backend.copyFileT (b : Backend) (s : Side) (src dst : String) (ow : Bool) : Res Unit :=
  ([.copyFile s src dst ow], b.copy_file src dst ow)

def Backend.removeFileT (b : Backend) (s : Side) (p : String) : Res Unit :=
  ([.removeFile s p], b.remove_file p)

def Backend.removeDirT (b : Backend) (s : Side) (p : String) : Res Unit :=
  ([.removeDir s p], b.remove_dir p)

/-! ## ops.rs: calculate_total_size -/

/-- ops.rs: the per-entry loop body shared by both loops of
`calculate_total_size`: directories are queued (in encounter order),
every non-directory entry contributes `size.unwrap_or(0)`. -/
def tallyFiles : List File → List String × Nat
  | [] => ([], 0)
  | f :: rest =>
    let (ds, t) := tallyFiles rest
    if f.metadata.type = .Dir then (f.path :: ds, t)
    else (ds, f.metadata.size.getD 0 + t)

/-- ops.rs: the inner `for dir in dirs_to_process` loop of one level of
`calculate_total_size`. -/
def calcLevel (b : Backend) : List String → Res (List String × Nat)
  | [] => ([], .ok ([], 0))
  | d :: rest =>
    bindE (b.readDirT .fromB d) fun files =>
      let (ds, t) := tallyFiles files
      bindE (calcLevel b rest) fun (ds2, t2) => ([], .ok (ds ++ ds2, t + t2))

/-- ops.rs: the `while !dirs_to_process.is_empty()` loop of
`calculate_total_size`; one fuel unit per level. -/
def calcLoop (b : Backend) : Nat → List String → Nat → Res Nat
  | _, [], total => ([], .ok total)
  | 0, _ :: _, _ => ([], .error .outOfFuel)
  | fuel + 1, d :: rest, total =>
    bindE (calcLevel b (d :: rest)) fun (nds, t) => calcLoop b fuel nds (total + t)

/-- ops.rs: `calculate_total_size`. -/
def calculate_total_size (b : Backend) (fuel : Nat) (paths : List String) : Res Nat :=
  bindE (b.retrieveFilesT .fromB paths) fun files =>
    let (dirs, total) := tallyFiles files
    calcLoop b fuel dirs total

/-! ## ops.rs: remove_all (lib.rs carries an identical copy) -/

/-- ops.rs: the top-level `for path in paths` loop of `remove_all`:
directories are queued, everything else is removed immediately. -/
def removeAllTop (b : Backend) : List String → Res (List String)
  | [] => ([], .ok [])
  | p :: rest =>
    bindE (b.getFileTypeT .fromB p) fun t =>
      if t = .Dir then
        bindE (removeAllTop b rest) fun ds => ([], .ok (p :: ds))
      else
        bindE (b.removeFileT .fromB p) fun _ => removeAllTop b rest

/-- ops.rs: `remove_all`'s inner `for file in results` loop: returns the
subdirectories found and the count of files removed. -/
def removeAllScan (b : Backend) : List File → Res (List String × Nat)
  | [] => ([], .ok ([], 0))
  | f :: rest =>
    if f.metadata.type = .Dir then
      bindE (removeAllScan b rest) fun (ds, n) => ([], .ok (f.path :: ds, n))
    else
      bindE (b.removeFileT .fromB f.path) fun _ =>
      bindE (removeAllScan b rest) fun (ds, n) => ([], .ok (ds, n + 1))

/-- ops.rs: `remove_all`'s treatment of one queued directory, including
the conditional `if files_removed == results_len { remove_dir }`. -/
def removeAllDir (b : Backend) (dir : String) : Res (List String) :=
  bindE (b.readDirT .fromB dir) fun results =>
  bindE (removeAllScan b results) fun (ds, n) =>
    if n = results.length then
      bindE (b.removeDirT .fromB dir) fun _ => ([], .ok ds)
    else ([], .ok ds)

/-- ops.rs: one level (`for dir in dirs_to_process`) of `remove_all`. -/
def removeAllLevel (b : Backend) : List String → Res (List String)
  | [] => ([], .ok [])
  | d :: rest =>
    bindE (removeAllDir b d) fun ds =>
    bindE (removeAllLevel b rest) fun ds2 => ([], .ok (ds ++ ds2))

/-- ops.rs: the `while` loop of `remove_all`. -/
def removeAllLoop (b : Backend) : Nat → List String → Res Unit
  | _, [] => ([], .ok ())
  | 0, _ :: _ => ([], .error .outOfFuel)
  | fuel + 1, d :: rest =>
    bindE (removeAllLevel b (d :: rest)) fun nds => removeAllLoop b fuel nds

/-- ops.rs: `remove_all`. -/
def remove_all (b : Backend) (fuel : Nat) (paths : List String) : Res Unit :=
  bindE (removeAllTop b paths) fun dirs => removeAllLoop b fuel dirs

/-! ## ops.rs: move_files / copy_files (single backend) -/

/-- ops.rs: the repeated `if let Err(error) = backend.create_dir(..)`
block: an "already exists" error is swallowed, any other propagates. -/
def createDirTolerated (b : Backend) (s : Side) (p : String) : Res Unit :=
  match b.create_dir p with
  | .ok _ => ([.createDir s p], .ok ())
  | .error e =>
    if e.is_already_exists_error then ([.createDir s p], .ok ())
    else ([.createDir s p], .error e)

/-- ops.rs: `move_files`' top-level `for path in from` loop; returns the
queued `(origin, relative parents)` pairs. -/
def moveFilesTop (b : Backend) (dst : String) : List String → Res (List (String × String))
  | [] => ([], .ok [])
  | p :: rest =>
    bindE (b.getFileTypeT .fromB p) fun t =>
      match t with
      | .File | .Symlink =>
        bindE (b.moveFileT .fromB p (dst ++ "/" ++ extract_lowest_path_item p) false) fun _ =>
          moveFilesTop b dst rest
      | .Dir => bindE (moveFilesTop b dst rest) fun ds => ([], .ok ((p, "/") :: ds))
      | t => ([], .error (.CannotCopyOrMoveFileType t))

/-- ops.rs: `move_files`' inner `for file in backend.read_dir(..)` loop. -/
def moveChildren (b : Backend) (toDirPath parents : String) :
    List File → Res (List (String × String))
  | [] => ([], .ok [])
  | f :: rest =>
    match f.metadata.type with
    | .File | .Symlink =>
      bindE (b.moveFileT .fromB f.path (toDirPath ++ "/" ++ f.name) false) fun _ =>
        moveChildren b toDirPath parents rest
    | .Dir =>
      bindE (moveChildren b toDirPath parents rest) fun ds =>
        ([], .ok ((f.path, parents) :: ds))
    | t => ([], .error (.CannotCopyOrMoveFileType t))

/-- ops.rs: `move_files`' handling of one queued directory. -/
def moveProcessDir (b : Backend) (dst : String) (dir : String × String) :
    Res (List (String × String)) :=
  let parent_dirs := dir.2
  let dir_name := extract_lowest_path_item dir.1
  let to_dir_path := dst ++ parent_dirs ++ dir_name
  bindE (createDirTolerated b .fromB to_dir_path) fun _ =>
  bindE (b.readDirT .fromB dir.1) fun files =>
  moveChildren b to_dir_path (parent_dirs ++ dir_name ++ "/") files

/-- ops.rs: one level of `move_files`' `while` loop; also returns the
origin paths pushed onto `dirs_to_remove` this level, in push order. -/
def moveLevel (b : Backend) (dst : String) :
    List (String × String) → Res (List (String × String) × List String)
  | [] => ([], .ok ([], []))
  | d :: rest =>
    bindE (moveProcessDir b dst d) fun nds =>
    bindE (moveLevel b dst rest) fun (nds2, rems) => ([], .ok (nds ++ nds2, d.1 :: rems))

/-- ops.rs: `move_files`' `while !dirs_to_duplicate.is_empty()` loop,
accumulating `dirs_to_remove`; returns the final `dirs_to_remove`. -/
def moveLoop (b : Backend) (dst : String) :
    Nat → List (String × String) → List String → Res (List String)
  | _, [], toRemove => ([], .ok toRemove)
  | 0, _ :: _, _ => ([], .error .outOfFuel)
  | fuel + 1, d :: rest, toRemove =>
    bindE (moveLevel b dst (d :: rest)) fun (nds, rems) =>
      moveLoop b dst fuel nds (toRemove ++ rems)

/-- ops.rs: the final `while let Some(dir) = dirs_to_remove.pop()` loop;
the caller passes the reversed `dirs_to_remove`. -/
def removePhase (b : Backend) (s : Side) : List String → Res Unit
  | [] => ([], .ok ())
  | d :: rest => bindE (b.removeDirT s d) fun _ => removePhase b s rest

/-- ops.rs: `move_files`. -/
def move_files (b : Backend) (fuel : Nat) (fromPaths : List String) (dst : String) : Res Unit :=
  bindE (b.existsT .fromB dst) fun ex =>
    if ex then
      bindE (moveFilesTop b dst fromPaths) fun dirs =>
      bindE (moveLoop b dst fuel dirs []) fun toRemove =>
      removePhase b .fromB toRemove.reverse
    else ([], .error (.FileNonexistent dst))

/-- ops.rs: `copy_files`' top-level `for path in from` loop. -/
def copyFilesTop (b : Backend) (dst : String) : List String → Res (List (String × String))
  | [] => ([], .ok [])
  | p :: rest =>
    bindE (b.getFileTypeT .fromB p) fun t =>
      match t with
      | .File | .Symlink =>
        bindE (b.copyFileT .fromB p (dst ++ "/" ++ extract_lowest_path_item p) false) fun _ =>
          copyFilesTop b dst rest
      | .Dir => bindE (copyFilesTop b dst rest) fun ds => ([], .ok ((p, "/") :: ds))
      | t => ([], .error (.CannotCopyOrMoveFileType t))

/-- ops.rs: `copy_files`' inner children loop. -/
def copyChildren (b : Backend) (toDirPath parents : String) :
    List File → Res (List (String × String))
  | [] => ([], .ok [])
  | f :: rest =>
    match f.metadata.type with
    | .File | .Symlink =>
      bindE (b.copyFileT .fromB f.path (toDirPath ++ "/" ++ f.name) false) fun _ =>
        copyChildren b toDirPath parents rest
    | .Dir =>
      bindE (copyChildren b toDirPath parents rest) fun ds =>
        ([], .ok ((f.path, parents) :: ds))
    | t => ([], .error (.CannotCopyOrMoveFileType t))

/-- ops.rs: `copy_files`' handling of one queued directory. -/
def copyProcessDir (b : Backend) (dst : String) (dir : String × String) :
    Res (List (String × String)) :=
  let parent_dirs := dir.2
  let dir_name := extract_lowest_path_item dir.1
  let to_dir_path := dst ++ parent_dirs ++ dir_name
  bindE (createDirTolerated b .fromB to_dir_path) fun _ =>
  bindE (b.readDirT .fromB dir.1) fun files =>
  copyChildren b to_dir_path (parent_dirs ++ dir_name ++ "/") files

/-- ops.rs: one level of `copy_files`' `while` loop. -/
def copyLevel (b : Backend) (dst : String) :
    List (String × String) → Res (List (String × String))
  | [] => ([], .ok [])
  | d :: rest =>
    bindE (copyProcessDir b dst d) fun nds =>
    bindE (copyLevel b dst rest) fun nds2 => ([], .ok (nds ++ nds2))

/-- ops.rs: `copy_files`' `while` loop. -/
def copyLoop (b : Backend) (dst : String) : Nat → List (String × String) → Res Unit
  | _, [] => ([], .ok ())
  | 0, _ :: _ => ([], .error .outOfFuel)
  | fuel + 1, d :: rest =>
    bindE (copyLevel b dst (d :: rest)) fun nds => copyLoop b dst fuel nds

/-- ops.rs: `copy_files`. -/
def copy_files (b : Backend) (fuel : Nat) (fromPaths : List String) (dst : String) : Res Unit :=
  bindE (b.existsT .fromB dst) fun ex =>
    if ex then
      bindE (copyFilesTop b dst fromPaths) fun dirs =>
      copyLoop b dst fuel dirs
    else ([], .error (.FileNonexistent dst))

/-! ## ops.rs: progress types and the conflict-resolution protocol -/

/-- ops.rs: `TransferConflict`. -/
structure TransferConflict where
  file_type : FileType
  origin : String
  destination : String
deriving DecidableEq, Repr

/-- ops.rs: `TransitState`. -/
inductive TransitState where
  | Normal
  | Exists (conflict : TransferConflict)
  | Other (error : Err)
deriving DecidableEq, Repr

/-- ops.rs: `TransitProgress`. -/
structure TransitProgress where
  processed_bytes : Nat
  total_bytes : Nat
  processed_files : Nat
  total_files : Nat
  state : TransitState
deriving DecidableEq, Repr

/-- ops.rs: `TransitProgress::default()`. -/
def TransitProgress.default : TransitProgress :=
  { processed_bytes := 0, total_bytes := 0, processed_files := 0,
    total_files := 0, state := .Normal }

/-- ops.rs: `TransitProgressResponse`. -/
inductive TransitProgressResponse where
  | ContinueOrAbort
  | Skip
  | Overwrite
  | Abort
deriving DecidableEq, Repr

/-- A caller-supplied conflict/progress handler (pure: the engine
suspends until the response is available, which a function models). -/
abbrev Handler := TransitProgress → TransitProgressResponse

/-- ops.rs: `update_and_notify_progress_handler`.  Returns the handler's
response together with the mutated `TransitProgress` (the source mutates
it in place and hands the handler a clone of the updated value). -/
def update_and_notify_progress_handler (progress : TransitProgress) (handler : Handler)
    (error : Option Err) (current_file_type : FileType)
    (current_file_path current_file_dest : String) (current_file_size : Option Nat) :
    TransitProgressResponse × TransitProgress :=
  let st : TransitState :=
    match error with
    | some e =>
      if e.is_already_exists_error then
        .Exists { file_type := current_file_type, origin := current_file_path,
                  destination := current_file_dest }
      else .Other e
    | none => .Normal
  let p : TransitProgress :=
    { progress with
        state := st
        processed_bytes := progress.processed_bytes + current_file_size.getD 0 }
  (handler p, p)

/-- Converts an attempt's outcome to the `result.err()` option of the
source. -/
def errOf {α : Type} : Except Err α → Option Err
  | .ok _ => none
  | .error e => some e

/-- One attempted file transfer in a progress-tracked operation: the
attempt `att` (issued with overwrite = false by the caller), followed by
the source's `update_and_notify_progress_handler` call and the
`resolve_progress_handler_response!` macro, whose `Overwrite` arm runs
`retry` (the caller passes the overwrite = true variant of the
transfer).  Returns the updated progress and `true` to continue or
`false` when the handler chose `Abort` (the enclosing operation then
returns `Ok(())`). -/
def progressStep (p : TransitProgress) (handler : Handler) (att : Res Unit) (retry : Res Unit)
    (ft : FileType) (path fdest : String) (size : Option Nat) :
    Res (TransitProgress × Bool) :=
  let upd := update_and_notify_progress_handler p handler (errOf att.2) ft path fdest size
  match upd.1 with
  | .ContinueOrAbort =>
    match upd.2.state with
    | .Exists conflict => (att.1, .error (.FileAlreadyExists conflict.destination))
    | .Other e => (att.1, .error e)
    | .Normal => (att.1, .ok (upd.2, true))
  | .Skip => (att.1, .ok (upd.2, true))
  | .Overwrite =>
    match retry with
    | (t2, .ok _) => (att.1 ++ t2, .ok (upd.2, true))
    | (t2, .error e) => (att.1 ++ t2, .error e)
  | .Abort => (att.1, .ok (upd.2, false))

/-! ## ops.rs: move_files_with_progress / copy_files_with_progress -/

/-- ops.rs: `move_files_with_progress`' top-level loop over
`retrieve_files(from)` (File and Symlink are both transferable here). -/
def moveFilesTopP (b : Backend) (handler : Handler) (dst : String) :
    List File → TransitProgress → Res (TransitProgress × List (String × String) × Bool)
  | [], p => ([], .ok (p, [], true))
  | f :: rest, p =>
    match f.metadata.type with
    | .File | .Symlink =>
      let fdest := dst ++ "/" ++ extract_lowest_path_item f.path
      bindE (progressStep p handler (b.moveFileT .fromB f.path fdest false)
          (b.moveFileT .fromB f.path fdest true) f.metadata.type f.path fdest
          f.metadata.size) fun (p1, cont) =>
        if cont then moveFilesTopP b handler dst rest p1
        else ([], .ok (p1, [], false))
    | .Dir =>
      bindE (moveFilesTopP b handler dst rest p) fun (p1, ds, cont) =>
        ([], .ok (p1, (f.path, "/") :: ds, cont))
    | t => ([], .error (.CannotCopyOrMoveFileType t))

/-- ops.rs: `move_files_with_progress`' children loop (File and Symlink
transferable; failed transfers retried with `move_file(.., true)` on
`Overwrite`). -/
def moveChildrenP (b : Backend) (handler : Handler) (toDirPath parents : String) :
    List File → TransitProgress → Res (TransitProgress × List (String × String) × Bool)
  | [], p => ([], .ok (p, [], true))
  | f :: rest, p =>
    match f.metadata.type with
    | .File | .Symlink =>
      let fdest := toDirPath ++ "/" ++ f.name
      bindE (progressStep p handler (b.moveFileT .fromB f.path fdest false)
          (b.moveFileT .fromB f.path fdest true) f.metadata.type f.path fdest
          f.metadata.size) fun (p1, cont) =>
        if cont then moveChildrenP b handler toDirPath parents rest p1
        else ([], .ok (p1, [], false))
    | .Dir =>
      bindE (moveChildrenP b handler toDirPath parents rest p) fun (p1, ds, cont) =>
        ([], .ok (p1, (f.path, parents) :: ds, cont))
    | t => ([], .error (.CannotCopyOrMoveFileType t))

/-- ops.rs: one level of `move_files_with_progress`' `while` loop.
Returns (progress, next queue, dirs pushed onto `dirs_to_remove` this
level, continue flag).  On `Abort` the source returns from the whole
function before pushing the current directory. -/
def moveLevelP (b : Backend) (handler : Handler) (dst : String) :
    List (String × String) → TransitProgress →
    Res (TransitProgress × List (String × String) × List String × Bool)
  | [], p => ([], .ok (p, [], [], true))
  | d :: rest, p =>
    let dir_name := extract_lowest_path_item d.1
    let to_dir_path := dst ++ d.2 ++ dir_name
    bindE (createDirTolerated b .fromB to_dir_path) fun _ =>
    bindE (b.readDirT .fromB d.1) fun files =>
    bindE (moveChildrenP b handler to_dir_path (d.2 ++ dir_name ++ "/") files p)
      fun (p1, nds, cont) =>
        if cont then
          bindE (moveLevelP b handler dst rest p1) fun (p2, nds2, rems, cont2) =>
            ([], .ok (p2, nds ++ nds2, d.1 :: rems, cont2))
        else ([], .ok (p1, [], [], false))

/-- ops.rs: `move_files_with_progress`' `while` loop, accumulating
`dirs_to_remove`. -/
def moveLoopP (b : Backend) (handler : Handler) (dst : String) :
    Nat → List (String × String) → List String → TransitProgress →
    Res (List String × Bool)
  | _, [], toRemove, _ => ([], .ok (toRemove, true))
  | 0, _ :: _, _, _ => ([], .error .outOfFuel)
  | fuel + 1, d :: rest, toRemove, p =>
    bindE (moveLevelP b handler dst (d :: rest) p) fun (p1, nds, rems, cont) =>
      if cont then moveLoopP b handler dst fuel nds (toRemove ++ rems) p1
      else ([], .ok ([], false))

/-- ops.rs: `move_files_with_progress`. -/
def move_files_with_progress (b : Backend) (fuel : Nat) (fromPaths : List String)
    (dst : String) (handler : Handler) : Res Unit :=
  bindE (b.existsT .fromB dst) fun ex =>
    if ex then
      bindE (calculate_total_size b fuel fromPaths) fun total =>
      let p0 := { TransitProgress.default with total_bytes := total }
      bindE (b.retrieveFilesT .fromB fromPaths) fun files =>
      bindE (moveFilesTopP b handler dst files p0) fun (p1, dirs, cont) =>
        if cont then
          bindE (moveLoopP b handler dst fuel dirs [] p1) fun (toRemove, cont2) =>
            if cont2 then removePhase b .fromB toRemove.reverse
            else ([], .ok ())
        else ([], .ok ())
    else ([], .error (.FileNonexistent dst))

/-- ops.rs: `copy_files_with_progress`' top-level loop.  NOTE: unlike
`move_files_with_progress`, only `FileType::File` is matched as a
transferable leaf here; `Symlink` falls into the catch-all abort arm. -/
def copyFilesTopP (b : Backend) (handler : Handler) (dst : String) :
    List File → TransitProgress → Res (TransitProgress × List (String × String) × Bool)
  | [], p => ([], .ok (p, [], true))
  | f :: rest, p =>
    match f.metadata.type with
    | .File =>
      let fdest := dst ++ "/" ++ extract_lowest_path_item f.path
      bindE (progressStep p handler (b.copyFileT .fromB f.path fdest false)
          (b.copyFileT .fromB f.path fdest true) f.metadata.type f.path fdest
          f.metadata.size) fun (p1, cont) =>
        if cont then copyFilesTopP b handler dst rest p1
        else ([], .ok (p1, [], false))
    | .Dir =>
      bindE (copyFilesTopP b handler dst rest p) fun (p1, ds, cont) =>
        ([], .ok (p1, (f.path, "/") :: ds, cont))
    | t => ([], .error (.CannotCopyOrMoveFileType t))

/-- ops.rs: `copy_files_with_progress`' children loop.  NOTE: only
`File` is transferable, and the source's `Overwrite` retry calls
`backend.move_file(.., true)` — not `copy_file` — which this embedding
reproduces faithfully. -/
def copyChildrenP (b : Backend) (handler : Handler) (toDirPath parents : String) :
    List File → TransitProgress → Res (TransitProgress × List (String × String) × Bool)
  | [], p => ([], .ok (p, [], true))
  | f :: rest, p =>
    match f.metadata.type with
    | .File =>
      let fdest := toDirPath ++ "/" ++ f.name
      bindE (progressStep p handler (b.copyFileT .fromB f.path fdest false)
          (b.moveFileT .fromB f.path fdest true) f.metadata.type f.path fdest
          f.metadata.size) fun (p1, cont) =>
        if cont then copyChildrenP b handler toDirPath parents rest p1
        else ([], .ok (p1, [], false))
    | .Dir =>
      bindE (copyChildrenP b handler toDirPath parents rest p) fun (p1, ds, cont) =>
        ([], .ok (p1, (f.path, parents) :: ds, cont))
    | t => ([], .error (.CannotCopyOrMoveFileType t))

/-- ops.rs: one level of `copy_files_with_progress`' `while` loop. -/
def copyLevelP (b : Backend) (handler : Handler) (dst : String) :
    List (String × String) → TransitProgress →
    Res (TransitProgress × List (String × String) × Bool)
  | [], p => ([], .ok (p, [], true))
  | d :: rest, p =>
    let dir_name := extract_lowest_path_item d.1
    let to_dir_path := dst ++ d.2 ++ dir_name
    bindE (createDirTolerated b .fromB to_dir_path) fun _ =>
    bindE (b.readDirT .fromB d.1) fun files =>
    bindE (copyChildrenP b handler to_dir_path (d.2 ++ dir_name ++ "/") files p)
      fun (p1, nds, cont) =>
        if cont then
          bindE (copyLevelP b handler dst rest p1) fun (p2, nds2, cont2) =>
            ([], .ok (p2, nds ++ nds2, cont2))
        else ([], .ok (p1, [], false))

/-- ops.rs: `copy_files_with_progress`' `while` loop. -/
def copyLoopP (b : Backend) (handler : Handler) (dst : String) :
    Nat → List (String × String) → TransitProgress → Res Bool
  | _, [], _ => ([], .ok true)
  | 0, _ :: _, _ => ([], .error .outOfFuel)
  | fuel + 1, d :: rest, p =>
    bindE (copyLevelP b handler dst (d :: rest) p) fun (p1, nds, cont) =>
      if cont then copyLoopP b handler dst fuel nds p1
      else ([], .ok false)

/-- ops.rs: `copy_files_with_progress`. -/
def copy_files_with_progress (b : Backend) (fuel : Nat) (fromPaths : List String)
    (dst : String) (handler : Handler) : Res Unit :=
  bindE (b.existsT .fromB dst) fun ex =>
    if ex then
      bindE (calculate_total_size b fuel fromPaths) fun total =>
      let p0 := { TransitProgress.default with total_bytes := total }
      bindE (b.retrieveFilesT .fromB fromPaths) fun files =>
      bindE (copyFilesTopP b handler dst files p0) fun (p1, dirs, cont) =>
        if cont then
          bindE (copyLoopP b handler dst fuel dirs p1) fun _ => ([], .ok ())
        else ([], .ok ())
    else ([], .error (.FileNonexistent dst))

/-! ## ops.rs: cross-backend operations -/

/-- ops.rs: `copy_file_between`: read the full content from the source
backend, write it (respecting `overwrite`) to the destination backend. -/
def copy_file_between (bf bt : Backend) (src dst : String) (ow : Bool) : Res Unit :=
  bindE (bf.retrieveFileContentT .fromB src) fun contents =>
  bindE (bt.createFileT .toB dst ow (some contents)) fun _ => ([], .ok ())

/-- ops.rs: `move_file_between`: copy, then remove the source file. -/
def move_file_between (bf bt : Backend) (src dst : String) (ow : Bool) : Res Unit :=
  bindE (copy_file_between bf bt src dst ow) fun _ =>
  bindE (bf.removeFileT .fromB src) fun _ => ([], .ok ())

/-- ops.rs: `move_files_between`' top-level loop.  NOTE: only
`FileType::File` is matched as transferable here; `Symlink` falls into
the catch-all abort arm. -/
def moveBetweenTop (bf bt : Backend) (dst : String) : List String → Res (List (String × String))
  | [] => ([], .ok [])
  | p :: rest =>
    bindE (bf.getFileTypeT .fromB p) fun t =>
      match t with
      | .File =>
        bindE (move_file_between bf bt p (dst ++ "/" ++ extract_lowest_path_item p) false)
          fun _ => moveBetweenTop bf bt dst rest
      | .Dir => bindE (moveBetweenTop bf bt dst rest) fun ds => ([], .ok ((p, "/") :: ds))
      | t => ([], .error (.CannotCopyOrMoveFileType t))

/-- ops.rs: `move_files_between`' children loop (`File` only). -/
def moveBetweenChildren (bf bt : Backend) (toDirPath parents : String) :
    List File → Res (List (String × String))
  | [] => ([], .ok [])
  | f :: rest =>
    match f.metadata.type with
    | .File =>
      bindE (move_file_between bf bt f.path (toDirPath ++ "/" ++ f.name) false) fun _ =>
        moveBetweenChildren bf bt toDirPath parents rest
    | .Dir =>
      bindE (moveBetweenChildren bf bt toDirPath parents rest) fun ds =>
        ([], .ok ((f.path, parents) :: ds))
    | t => ([], .error (.CannotCopyOrMoveFileType t))

/-- ops.rs: `move_files_between`' handling of one queued directory
(directory creation goes to the destination backend, the listing to the
source backend). -/
def moveBetweenProcessDir (bf bt : Backend) (dst : String) (dir : String × String) :
    Res (List (String × String)) :=
  let parent_dirs := dir.2
  let dir_name := extract_lowest_path_item dir.1
  let to_dir_path := dst ++ parent_dirs ++ dir_name
  bindE (createDirTolerated bt .toB to_dir_path) fun _ =>
  bindE (bf.readDirT .fromB dir.1) fun files =>
  moveBetweenChildren bf bt to_dir_path (parent_dirs ++ dir_name ++ "/") files

/-- ops.rs: one level of `move_files_between`' `while` loop. -/
def moveBetweenLevel (bf bt : Backend) (dst : String) :
    List (String × String) → Res (List (String × String) × List String)
  | [] => ([], .ok ([], []))
  | d :: rest =>
    bindE (moveBetweenProcessDir bf bt dst d) fun nds =>
    bindE (moveBetweenLevel bf bt dst rest) fun (nds2, rems) =>
      ([], .ok (nds ++ nds2, d.1 :: rems))

/-- ops.rs: `move_files_between`' `while` loop, accumulating
`dirs_to_remove`. -/
def moveBetweenLoop (bf bt : Backend) (dst : String) :
    Nat → List (String × String) → List String → Res (List String)
  | _, [], toRemove => ([], .ok toRemove)
  | 0, _ :: _, _ => ([], .error .outOfFuel)
  | fuel + 1, d :: rest, toRemove =>
    bindE (moveBetweenLevel bf bt dst (d :: rest)) fun (nds, rems) =>
      moveBetweenLoop bf bt dst fuel nds (toRemove ++ rems)

/-- ops.rs: `move_files_between` (source directories removed on the
source backend, in reverse discovery order, after the traversal). -/
def move_files_between (bf bt : Backend) (fuel : Nat) (fromPaths : List String)
    (dst : String) : Res Unit :=
  bindE (bt.existsT .toB dst) fun ex =>
    if ex then
      bindE (moveBetweenTop bf bt dst fromPaths) fun dirs =>
      bindE (moveBetweenLoop bf bt dst fuel dirs []) fun toRemove =>
      removePhase bf .fromB toRemove.reverse
    else ([], .error (.FileNonexistent dst))

/-- ops.rs: `copy_files_between`' top-level loop (`File` and `Symlink`
both transferable). -/
def copyBetweenTop (bf bt : Backend) (dst : String) : List String → Res (List (String × String))
  | [] => ([], .ok [])
  | p :: rest =>
    bindE (bf.getFileTypeT .fromB p) fun t =>
      match t with
      | .File | .Symlink =>
        bindE (copy_file_between bf bt p (dst ++ "/" ++ extract_lowest_path_item p) false)
          fun _ => copyBetweenTop bf bt dst rest
      | .Dir => bindE (copyBetweenTop bf bt dst rest) fun ds => ([], .ok ((p, "/") :: ds))
      | t => ([], .error (.CannotCopyOrMoveFileType t))

/-- ops.rs: `copy_files_between`' children loop (`File` and `Symlink`). -/
def copyBetweenChildren (bf bt : Backend) (toDirPath parents : String) :
    List File → Res (List (String × String))
  | [] => ([], .ok [])
  | f :: rest =>
    match f.metadata.type with
    | .File | .Symlink =>
      bindE (copy_file_between bf bt f.path (toDirPath ++ "/" ++ f.name) false) fun _ =>
        copyBetweenChildren bf bt toDirPath parents rest
    | .Dir =>
      bindE (copyBetweenChildren bf bt toDirPath parents rest) fun ds =>
        ([], .ok ((f.path, parents) :: ds))
    | t => ([], .error (.CannotCopyOrMoveFileType t))

/-- ops.rs: `copy_files_between`' handling of one queued directory. -/
def copyBetweenProcessDir (bf bt : Backend) (dst : String) (dir : String × String) :
    Res (List (String × String)) :=
  let parent_dirs := dir.2
  let dir_name := extract_lowest_path_item dir.1
  let to_dir_path := dst ++ parent_dirs ++ dir_name
  bindE (createDirTolerated bt .toB to_dir_path) fun _ =>
  bindE (bf.readDirT .fromB dir.1) fun files =>
  copyBetweenChildren bf bt to_dir_path (parent_dirs ++ dir_name ++ "/") files

/-- ops.rs: one level of `copy_files_between`' `while` loop. -/
def copyBetweenLevel (bf bt : Backend) (dst : String) :
    List (String × String) → Res (List (String × String))
  | [] => ([], .ok [])
  | d :: rest =>
    bindE (copyBetweenProcessDir bf bt dst d) fun nds =>
    bindE (copyBetweenLevel bf bt dst rest) fun nds2 => ([], .ok (nds ++ nds2))

/-- ops.rs: `copy_files_between`' `while` loop. -/
def copyBetweenLoop (bf bt : Backend) (dst : String) :
    Nat → List (String × String) → Res Unit
  | _, [] => ([], .ok ())
  | 0, _ :: _ => ([], .error .outOfFuel)
  | fuel + 1, d :: rest =>
    bindE (copyBetweenLevel bf bt dst (d :: rest)) fun nds =>
      copyBetweenLoop bf bt dst fuel nds

/-- ops.rs: `copy_files_between`. -/
def copy_files_between (bf bt : Backend) (fuel : Nat) (fromPaths : List String)
    (dst : String) : Res Unit :=
  bindE (bt.existsT .toB dst) fun ex =>
    if ex then
      bindE (copyBetweenTop bf bt dst fromPaths) fun dirs =>
      copyBetweenLoop bf bt dst fuel dirs
    else ([], .error (.FileNonexistent dst))

/-! ## ops.rs: cross-backend progress-tracked operations -/

/-- ops.rs: `move_files_between_with_progress`' top-level loop.  NOTE:
only `File` is matched as transferable here. -/
def moveBetweenTopP (bf bt : Backend) (handler : Handler) (dst : String) :
    List File → TransitProgress → Res (TransitProgress × List (String × String) × Bool)
  | [], p => ([], .ok (p, [], true))
  | f :: rest, p =>
    match f.metadata.type with
    | .File =>
      let fdest := dst ++ "/" ++ extract_lowest_path_item f.path
      bindE (progressStep p handler (move_file_between bf bt f.path fdest false)
          (move_file_between bf bt f.path fdest true) f.metadata.type f.path fdest
          f.metadata.size) fun (p1, cont) =>
        if cont then moveBetweenTopP bf bt handler dst rest p1
        else ([], .ok (p1, [], false))
    | .Dir =>
      bindE (moveBetweenTopP bf bt handler dst rest p) fun (p1, ds, cont) =>
        ([], .ok (p1, (f.path, "/") :: ds, cont))
    | t => ([], .error (.CannotCopyOrMoveFileType t))

/-- ops.rs: `move_files_between_with_progress`' children loop (`File`
and `Symlink` are transferable here, unlike its own top-level loop). -/
def moveBetweenChildrenP (bf bt : Backend) (handler : Handler) (toDirPath parents : String) :
    List File → TransitProgress → Res (TransitProgress × List (String × String) × Bool)
  | [], p => ([], .ok (p, [], true))
  | f :: rest, p =>
    match f.metadata.type with
    | .File | .Symlink =>
      let fdest := toDirPath ++ "/" ++ f.name
      bindE (progressStep p handler (move_file_between bf bt f.path fdest false)
          (move_file_between bf bt f.path fdest true) f.metadata.type f.path fdest
          f.metadata.size) fun (p1, cont) =>
        if cont then moveBetweenChildrenP bf bt handler toDirPath parents rest p1
        else ([], .ok (p1, [], false))
    | .Dir =>
      bindE (moveBetweenChildrenP bf bt handler toDirPath parents rest p) fun (p1, ds, cont) =>
        ([], .ok (p1, (f.path, parents) :: ds, cont))
    | t => ([], .error (.CannotCopyOrMoveFileType t))

/-- ops.rs: one level of `move_files_between_with_progress`' loop. -/
def moveBetweenLevelP (bf bt : Backend) (handler : Handler) (dst : String) :
    List (String × String) → TransitProgress →
    Res (TransitProgress × List (String × String) × List String × Bool)
  | [], p => ([], .ok (p, [], [], true))
  | d :: rest, p =>
    let dir_name := extract_lowest_path_item d.1
    let to_dir_path := dst ++ d.2 ++ dir_name
    bindE (createDirTolerated bt .toB to_dir_path) fun _ =>
    bindE (bf.readDirT .fromB d.1) fun files =>
    bindE (moveBetweenChildrenP bf bt handler to_dir_path (d.2 ++ dir_name ++ "/") files p)
      fun (p1, nds, cont) =>
        if cont then
          bindE (moveBetweenLevelP bf bt handler dst rest p1) fun (p2, nds2, rems, cont2) =>
            ([], .ok (p2, nds ++ nds2, d.1 :: rems, cont2))
        else ([], .ok (p1, [], [], false))

/-- ops.rs: `move_files_between_with_progress`' `while` loop. -/
def moveBetweenLoopP (bf bt : Backend) (handler : Handler) (dst : String) :
    Nat → List (String × String) → List String → TransitProgress →
    Res (List String × Bool)
  | _, [], toRemove, _ => ([], .ok (toRemove, true))
  | 0, _ :: _, _, _ => ([], .error .outOfFuel)
  | fuel + 1, d :: rest, toRemove, p =>
    bindE (moveBetweenLevelP bf bt handler dst (d :: rest) p) fun (p1, nds, rems, cont) =>
      if cont then moveBetweenLoopP bf bt handler dst fuel nds (toRemove ++ rems) p1
      else ([], .ok ([], false))

/-- ops.rs: `move_files_between_with_progress`. -/
def move_files_between_with_progress (bf bt : Backend) (fuel : Nat)
    (fromPaths : List String) (dst : String) (handler : Handler) : Res Unit :=
  bindE (bt.existsT .toB dst) fun ex =>
    if ex then
      bindE (calculate_total_size bf fuel fromPaths) fun total =>
      let p0 := { TransitProgress.default with total_bytes := total }
      bindE (bf.retrieveFilesT .fromB fromPaths) fun files =>
      bindE (moveBetweenTopP bf bt handler dst files p0) fun (p1, dirs, cont) =>
        if cont then
          bindE (moveBetweenLoopP bf bt handler dst fuel dirs [] p1) fun (toRemove, cont2) =>
            if cont2 then removePhase bf .fromB toRemove.reverse
            else ([], .ok ())
        else ([], .ok ())
    else ([], .error (.FileNonexistent dst))

/-- ops.rs: `copy_files_between_with_progress`' top-level loop (`File`
only; attempts and retries both via `copy_file_between`). -/
def copyBetweenTopP (bf bt : Backend) (handler : Handler) (dst : String) :
    List File → TransitProgress → Res (TransitProgress × List (String × String) × Bool)
  | [], p => ([], .ok (p, [], true))
  | f :: rest, p =>
    match f.metadata.type with
    | .File =>
      let fdest := dst ++ "/" ++ extract_lowest_path_item f.path
      bindE (progressStep p handler (copy_file_between bf bt f.path fdest false)
          (copy_file_between bf bt f.path fdest true) f.metadata.type f.path fdest
          f.metadata.size) fun (p1, cont) =>
        if cont then copyBetweenTopP bf bt handler dst rest p1
        else ([], .ok (p1, [], false))
    | .Dir =>
      bindE (copyBetweenTopP bf bt handler dst rest p) fun (p1, ds, cont) =>
        ([], .ok (p1, (f.path, "/") :: ds, cont))
    | t => ([], .error (.CannotCopyOrMoveFileType t))

/-- ops.rs: `copy_files_between_with_progress`' children loop (`File`
only).  NOTE: the initial attempt in the source is
`from_backend.copy_file(&file.path, &file_dest, false)` — a
single-backend copy issued on the SOURCE backend — while the `Overwrite`
retry is `copy_file_between(.., true)`; this embedding reproduces both
faithfully. -/
def copyBetweenChildrenP (bf bt : Backend) (handler : Handler) (toDirPath parents : String) :
    List File → TransitProgress → Res (TransitProgress × List (String × String) × Bool)
  | [], p => ([], .ok (p, [], true))
  | f :: rest, p =>
    match f.metadata.type with
    | .File =>
      let fdest := toDirPath ++ "/" ++ f.name
      bindE (progressStep p handler (bf.copyFileT .fromB f.path fdest false)
          (copy_file_between bf bt f.path fdest true) f.metadata.type f.path fdest
          f.metadata.size) fun (p1, cont) =>
        if cont then copyBetweenChildrenP bf bt handler toDirPath parents rest p1
        else ([], .ok (p1, [], false))
    | .Dir =>
      bindE (copyBetweenChildrenP bf bt handler toDirPath parents rest p) fun (p1, ds, cont) =>
        ([], .ok (p1, (f.path, parents) :: ds, cont))
    | t => ([], .error (.CannotCopyOrMoveFileType t))

/-- ops.rs: one level of `copy_files_between_with_progress`' loop. -/
def copyBetweenLevelP (bf bt : Backend) (handler : Handler) (dst : String) :
    List (String × String) → TransitProgress →
    Res (TransitProgress × List (String × String) × Bool)
  | [], p => ([], .ok (p, [], true))
  | d :: rest, p =>
    let dir_name := extract_lowest_path_item d.1
    let to_dir_path := dst ++ d.2 ++ dir_name
    bindE (createDirTolerated bt .toB to_dir_path) fun _ =>
    bindE (bf.readDirT .fromB d.1) fun files =>
    bindE (copyBetweenChildrenP bf bt handler to_dir_path (d.2 ++ dir_name ++ "/") files p)
      fun (p1, nds, cont) =>
        if cont then
          bindE (copyBetweenLevelP bf bt handler dst rest p1) fun (p2, nds2, cont2) =>
            ([], .ok (p2, nds ++ nds2, cont2))
        else ([], .ok (p1, [], false))

/-- ops.rs: `copy_files_between_with_progress`' `while` loop. -/
def copyBetweenLoopP (bf bt : Backend) (handler : Handler) (dst : String) :
    Nat → List (String × String) → TransitProgress → Res Bool
  | _, [], _ => ([], .ok true)
  | 0, _ :: _, _ => ([], .error .outOfFuel)
  | fuel + 1, d :: rest, p =>
    bindE (copyBetweenLevelP bf bt handler dst (d :: rest) p) fun (p1, nds, cont) =>
      if cont then copyBetweenLoopP bf bt handler dst fuel nds p1
      else ([], .ok false)

/-- ops.rs: `copy_files_between_with_progress`. -/
def copy_files_between_with_progress (bf bt : Backend) (fuel : Nat)
    (fromPaths : List String) (dst : String) (handler : Handler) : Res Unit :=
  bindE (bt.existsT .toB dst) fun ex =>
    if ex then
      bindE (calculate_total_size bf fuel fromPaths) fun total =>
      let p0 := { TransitProgress.default with total_bytes := total }
      bindE (bf.retrieveFilesT .fromB fromPaths) fun files =>
      bindE (copyBetweenTopP bf bt handler dst files p0) fun (p1, dirs, cont) =>
        if cont then
          bindE (copyBetweenLoopP bf bt handler dst fuel dirs p1) fun _ => ([], .ok ())
        else ([], .ok ())
    else ([], .error (.FileNonexistent dst))

/-! ## A concrete backend over in-memory directory trees

Used to state the claims that quantify over "directory trees": the
backend answers queries from a static snapshot of the tree (the engine
algorithms never re-read an entry they have mutated, so a snapshot
backend is an adequate model of a real filesystem for them), and every
mutation succeeds. -/

mutual
/-- A filesystem entry: a non-directory leaf carrying its `FileType` and
optional size, or a directory with named children. -/
inductive FsTree where
  | leaf (t : FileType) (size : Option Nat)
  | node (children : FsForest)
deriving DecidableEq, Repr

/-- The named children of a directory, in listing order. -/
inductive FsForest where
  | nil
  | cons (name : String) (tree : FsTree) (rest : FsForest)
deriving DecidableEq, Repr
end

mutual
/-- Levels of directory nesting below (and including) this entry. -/
def FsTree.height : FsTree → Nat
  | .leaf _ _ => 0
  | .node cs => cs.height + 1

def FsForest.height : FsForest → Nat
  | .nil => 0
  | .cons _ t rest => max t.height rest.height
end

mutual
/-- Sum of `size.unwrap_or(0)` over all non-directory entries of the
tree (leaves; `FsTree.node` entries contribute nothing themselves). -/
def FsTree.leafSum : FsTree → Nat
  | .leaf _ s => s.getD 0
  | .node cs => cs.leafSum

def FsForest.leafSum : FsForest → Nat
  | .nil => 0
  | .cons _ t rest => t.leafSum + rest.leafSum
end

mutual
/-- Every leaf's `FileType` satisfies `P` (directories are the `node`s;
a well-formed snapshot never types a leaf as `Dir`). -/
def FsTree.okB (P : FileType → Bool) : FsTree → Bool
  | .leaf t _ => P t
  | .node cs => cs.okB P

def FsForest.okB (P : FileType → Bool) : FsForest → Bool
  | .nil => true
  | .cons _ t rest => t.okB P && rest.okB P
end

/-- The `FileType` a backend reports for this entry. -/
def FsTree.mdType : FsTree → FileType
  | .leaf t _ => t
  | .node _ => .Dir

/-- The size a backend reports for this entry. -/
def FsTree.mdSize : FsTree → Option Nat
  | .leaf _ s => s
  | .node _ => none

/-- The `Metadata` a backend reports for this entry. -/
def FsTree.md (t : FsTree) : Metadata :=
  { type := t.mdType, size := t.mdSize }

/-- A snapshot: full path ↦ (nesting depth, entry).  Generated by
closing a set of roots under children; `SnapClosed` below states the
closure property. -/
abbrev Snap := List (String × Nat × FsTree)

/-- Association lookup on the snapshot's path component. -/
def lookupS : Snap → String → Option (Nat × FsTree)
  | [], _ => none
  | (q, k, t) :: rest, p => if q = p then some (k, t) else lookupS rest p

/-- The `File` values `read_dir dir` returns for this forest. -/
def forestFiles (dir : String) : FsForest → List File
  | .nil => []
  | .cons n t rest =>
    { path := dir ++ "/" ++ n, name := n, metadata := t.md } :: forestFiles dir rest

/-- The snapshot entries of this forest's members, as children of a
directory at path `dir` and depth `k`. -/
def forestEntries (dir : String) (k : Nat) : FsForest → Snap
  | .nil => []
  | .cons n t rest => (dir ++ "/" ++ n, k + 1, t) :: forestEntries dir k rest

/-- The full paths of this forest's directory members. -/
def forestDirPaths (dir : String) : FsForest → List String
  | .nil => []
  | .cons n (.node _) rest => (dir ++ "/" ++ n) :: forestDirPaths dir rest
  | .cons _ (.leaf _ _) rest => forestDirPaths dir rest

/-- `retrieve_files` on the snapshot: batch metadata lookup, failing on
the first missing path. -/
def retrieveS (flat : Snap) : List String → Except Err (List File)
  | [] => .ok []
  | p :: rest =>
    match lookupS flat p with
    | some (_, t) =>
      match retrieveS flat rest with
      | .ok fs => .ok ({ path := p, name := extract_lowest_path_item p, metadata := t.md } :: fs)
      | .error e => .error e
    | none => .error (.FileNonexistent p)

/-- The snapshot backend: queries answered from `flat`, mutations all
succeed. -/
def treeBackend (flat : Snap) : Backend where
  existsQ p := .ok (lookupS flat p).isSome
  get_file_type p :=
    match lookupS flat p with
    | some (_, t) => .ok t.mdType
    | none => .error (.FileNonexistent p)
  retrieve_files ps := retrieveS flat ps
  retrieve_file_content _ := .ok []
  read_dir p :=
    match lookupS flat p with
    | some (_, .node cs) => .ok (forestFiles p cs)
    | some (_, .leaf _ _) => .error (.StdIo .other)
    | none => .error (.FileNonexistent p)
  create_file _ _ _ := .ok ()
  create_dir _ := .ok ()
  move_file _ _ _ := .ok ()
  copy_file _ _ _ := .ok ()
  remove_file _ := .ok ()
  remove_dir _ := .ok ()

/-- The snapshot entries of an entry's immediate children (empty for a
leaf). -/
def entryChildren : String × Nat × FsTree → Snap
  | (d, k, .node cs) => forestEntries d k cs
  | (_, _, .leaf _ _) => []

/-- Closure: every child of a directory entry is itself an entry, one
level deeper, keyed by the parent path plus "/" plus its name. -/
@[reducible] def SnapClosed (flat : Snap) : Prop :=
  ∀ e ∈ flat, ∀ c ∈ entryChildren e, c ∈ flat

/-- Well-formed snapshot: distinct paths and closed under children. -/
@[reducible] def SnapWF (flat : Snap) : Prop :=
  (flat.map Prod.fst).Nodup ∧ SnapClosed flat

/-- The directory children (as full paths) of the directory at `d`. -/
def childDirs (flat : Snap) (d : String) : List String :=
  match lookupS flat d with
  | some (_, .node cs) => forestDirPaths d cs
  | _ => []

/-- Breadth-first discovery order of directories, by levels, starting
from the queue `Q`; mirrors the engine's level-by-level queues. -/
def bfsList (flat : Snap) : Nat → List String → List String
  | _, [] => []
  | 0, _ :: _ => []
  | fuel + 1, d :: rest =>
    (d :: rest) ++ bfsList flat fuel ((d :: rest).flatMap (childDirs flat))

/-! ## Event classes and concrete instances used in the theorems -/

/-- Is this event a `remove_dir` call? -/
def Ev.isRemDirEv : Ev → Bool
  | .removeDir _ _ => true
  | _ => false

/-- Is this event a `create_file` call? -/
def Ev.isCreateFileEv : Ev → Bool
  | .createFile _ _ _ _ => true
  | _ => false

/-- Is this event a `retrieve_file_content` call? -/
def Ev.isRetrieveContentEv : Ev → Bool
  | .retrieveFileContent _ _ => true
  | _ => false

/-- Leaf types other than `Dir` (what a well-formed snapshot may type a
leaf as). -/
def notDirT : FileType → Bool
  | .Dir => false
  | _ => true

/-- Exactly the `File` type (leaves every transfer variant accepts). -/
def isFileT : FileType → Bool
  | .File => true
  | _ => false

/-- The `File` record the snapshot backend's `retrieve_files` reports
for a directory at path `p` (used to pin abstract-backend responses). -/
def dirFile (p : String) : File :=
  { path := p, name := extract_lowest_path_item p, metadata := { type := .Dir } }

/-- A handler that always continues without retrying. -/
def skipHandler : Handler := fun _ => .Skip

/-- A handler that always asks for an overwrite retry. -/
def overwriteHandler : Handler := fun _ => .Overwrite

/-- /a/b/f: a 3-byte file. -/
def leafF3 : FsTree := .leaf .File (some 3)

/-- /a/b: a directory holding only the file f. -/
def dirB : FsTree := .node (.cons "f" leafF3 .nil)

/-- /a: a directory holding only the subdirectory b (a non-leaf
directory, the shape `remove_all` orphans). -/
def dirA : FsTree := .node (.cons "b" dirB .nil)

/-- Snapshot of the tree /a ⊃ /a/b ⊃ /a/b/f. -/
def snapA : Snap := [("/a", 0, dirA), ("/a/b", 1, dirB), ("/a/b/f", 2, leafF3)]

/-- /s: a directory holding one 4-byte file f. -/
def dirS : FsTree := .node (.cons "f" (FsTree.leaf .File (some 4)) .nil)

/-- Snapshot with source tree /s ⊃ /s/f. -/
def snapS : Snap := [("/s", 0, dirS), ("/s/f", 1, FsTree.leaf .File (some 4))]

/-- Snapshot holding only an empty destination directory /dst. -/
def snapD : Snap := [("/dst", 0, FsTree.node .nil)]

/-- Snapshot with both the source tree /s and the destination /dst. -/
def snapSD : Snap :=
  [("/s", 0, dirS), ("/s/f", 1, FsTree.leaf .File (some 4)), ("/dst", 0, FsTree.node .nil)]

/-- Snapshot with a top-level symlink /s and the destination /dst. -/
def snapLink : Snap := [("/s", 0, FsTree.leaf .Symlink (some 0)), ("/dst", 0, FsTree.node .nil)]

/-- The snapshot backend over `snapSD`, altered so that every
single-backend `copy_file` call reports the destination as already
existing (a permanent conflict). -/
def conflictCopyBackend : Backend :=
  { treeBackend snapSD with copy_file := fun _ d _ => .error (.FileAlreadyExists d) }

/-- A sample progress value mid-operation. -/
def sampleProgress : TransitProgress :=
  { processed_bytes := 0, total_bytes := 10, processed_files := 0,
    total_files := 2, state := .Normal }

/-- The snapshot backend over { /s (empty dir), /dst (empty dir) },
altered so that every `create_dir` call reports "already exists". -/
def conflictDirBackend : Backend :=
  { treeBackend [("/s", 0, FsTree.node .nil), ("/dst", 0, FsTree.node .nil)] with
      create_dir := fun p => .error (.FileAlreadyExists p) }

/-- Snapshot instantiating the type-dispatch theorem: a top-level
symlink /q, a directory /p with symlink child /p/c, and /dst. -/
def snapDispatch : Snap :=
  [("/q", 0, FsTree.leaf .Symlink (some 0)),
   ("/p", 0, FsTree.node (.cons "c" (FsTree.leaf .Symlink (some 0)) .nil)),
   ("/p/c", 1, FsTree.leaf .Symlink (some 0)),
   ("/dst", 0, FsTree.node .nil)]

/-- The `File` record `snapDispatch`'s backend reports for /q. -/
def gLink : File :=
  { path := "/q", name := extract_lowest_path_item "/q",
    metadata := { type := .Symlink, size := some 0 } }

/-- The `File` record `snapDispatch`'s backend lists for /p's child. -/
def fLinkChild : File :=
  { path := "/p" ++ "/" ++ "c", name := "c",
    metadata := { type := .Symlink, size := some 0 } }

/-- Sum of the sizes of a forest's immediate non-directory members. -/
def FsForest.immSize : FsForest → Nat
  | .nil => 0
  | .cons _ (.leaf _ s) rest => s.getD 0 + rest.immSize
  | .cons _ (.node _) rest => rest.immSize

/-- The leaf-size total of the subtree rooted at path `d` (0 when `d` is
not a snapshot entry). -/
def subSum (flat : Snap) (d : String) : Nat :=
  match lookupS flat d with
  | some (_, t) => t.leafSum
  | none => 0

/-- The immediate-size total of the directory entry at path `d`. -/
def immAt (flat : Snap) (d : String) : Nat :=
  match lookupS flat d with
  | some (_, .node cs) => cs.immSize
  | _ => 0

/-- Queue invariant of one level of breadth-first traversal: every
queued path is a directory entry of the snapshot whose leaves satisfy
`P` and whose remaining nesting depth is at most `fuel`. -/
def DirsOk (flat : Snap) (P : FileType → Bool) (fuel : Nat) (dirs : List String) : Prop :=
  ∀ d ∈ dirs, ∃ k cs, (d, k, FsTree.node cs) ∈ flat ∧
    FsForest.okB P cs = true ∧ cs.height + 1 ≤ fuel

/-- The `File` record the snapshot backend reports for entry `e`. -/
def rootFile (e : String × Nat × FsTree) : File :=
  { path := e.1, name := extract_lowest_path_item e.1, metadata := e.2.2.md }

/-- The paths of the directory entries among `pairs`. -/
def rootDirs : List (String × Nat × FsTree) → List String
  | [] => []
  | (d, _, .node _) :: rest => d :: rootDirs rest
  | (_, _, .leaf _ _) :: rest => rootDirs rest

/-- The size total of the non-directory entries among `pairs`. -/
def rootLeafSizes : List (String × Nat × FsTree) → Nat
  | [] => 0
  | (_, _, .leaf _ s) :: rest => s.getD 0 + rootLeafSizes rest
  | (_, _, .node _) :: rest => rootLeafSizes rest

/-- `d2` is a strict descendant directory of `d` in the snapshot
(reachable through one or more directory-children steps). -/
inductive Desc (flat : Snap) : String → String → Prop where
  | child {d d2 : String} : d2 ∈ childDirs flat d → Desc flat d d2
  | step {d c d2 : String} : c ∈ childDirs flat d → Desc flat c d2 → Desc flat d d2

/-- The nesting depth recorded for path `d` (0 when absent). -/
def depthAt (flat : Snap) (d : String) : Nat :=
  match lookupS flat d with
  | some (k, _) => k
  | none => 0

/-- Queue invariant at a fixed depth `k`: every queued path is a
directory entry at depth `k` whose leaves satisfy `P` and whose
remaining nesting height is at most `fuel`. -/
def DirsOkAt (flat : Snap) (P : FileType → Bool) (fuel k : Nat) (dirs : List String) : Prop :=
  ∀ d ∈ dirs, ∃ cs, (d, k, FsTree.node cs) ∈ flat ∧
    FsForest.okB P cs = true ∧ cs.height + 1 ≤ fuel

/-- The /a ⊃ /a/b ⊃ /a/b/f snapshot together with a destination /dst. -/
def snapAD : Snap :=
  [("/a", 0, dirA), ("/a/b", 1, dirB), ("/a/b/f", 2, leafF3), ("/dst", 0, FsTree.node .nil)]

/-- The snapshot backend over the /a tree, altered so that every
`read_dir` call fails (to exhibit a backend error mid-traversal). -/
def failReadBackend : Backend :=
  { treeBackend snapA with read_dir := fun _ => .error (.StdIo .other) }

/-! # Theorems -/

@[simp] theorem bindE_ok {α β : Type} (t : List Ev) (a : α) (f : α → Res β) :
    bindE (t, .ok a) f = (t ++ (f a).1, (f a).2) := rfl

@[simp] theorem bindE_error {α β : Type} (t : List Ev) (e : Err) (f : α → Res β) :
    bindE (t, .error e) f = (t, .error e) := rfl

/-- C1: on the tree /a ⊃ /a/b ⊃ /a/b/f, `remove_all` returns success but
never issues `remove_dir` on the root /a (its only entry, the
subdirectory /a/b, was not a plain file, so the `files_removed ==
results_len` guard skips the root's deletion), contradicting the claim
that no entry remains at or below any given root and that the recorded
directories are removed in reverse discovery order after the descent. -/
theorem C1_remove_all_orphans_nonleaf_root :
    (remove_all (treeBackend snapA) 3 ["/a"]).2 = .ok () ∧
    Ev.removeDir .fromB "/a" ∉ (remove_all (treeBackend snapA) 3 ["/a"]).1 ∧
    Ev.removeDir .fromB "/a/b" ∈ (remove_all (treeBackend snapA) 3 ["/a"]).1 ∧
    Ev.removeFile .fromB "/a/b/f" ∈ (remove_all (treeBackend snapA) 3 ["/a"]).1 := by
  decide

/-- C3: in `copy_files_between_with_progress`, the transfer of the child
file /s/f is issued as `copy_file` on the SOURCE backend (ops.rs:915);
no content is read via `retrieve_file_content` and nothing is written
via `create_file` on the destination backend, contradicting the claim
that every individual transfer reads from `fromBackend` and writes via
`toBackend`'s `create_file`. -/
theorem C3_between_progress_child_copied_on_from_backend :
    (copy_files_between_with_progress (treeBackend snapS) (treeBackend snapD) 2
        ["/s"] "/dst" skipHandler).2 = .ok () ∧
    Ev.copyFile .fromB "/s/f" "/dst/s/f" false ∈
      (copy_files_between_with_progress (treeBackend snapS) (treeBackend snapD) 2
        ["/s"] "/dst" skipHandler).1 ∧
    ((copy_files_between_with_progress (treeBackend snapS) (treeBackend snapD) 2
        ["/s"] "/dst" skipHandler).1.all fun e => !e.isCreateFileEv) = true ∧
    ((copy_files_between_with_progress (treeBackend snapS) (treeBackend snapD) 2
        ["/s"] "/dst" skipHandler).1.all fun e => !e.isRetrieveContentEv) = true := by
  decide

/-- C5: in `copy_files_with_progress`, when the copy of the child file
/s/f fails with "already exists" and the handler answers `Overwrite`,
the engine retries with `move_file(.., true)` (ops.rs:523) — a move, not
a copy — contradicting the claim that the retry repeats the same
operation kind. -/
theorem C5_copy_progress_overwrite_retry_is_a_move :
    (copy_files_with_progress conflictCopyBackend 2 ["/s"] "/dst" overwriteHandler).2
      = .ok () ∧
    Ev.copyFile .fromB "/s/f" "/dst/s/f" false ∈
      (copy_files_with_progress conflictCopyBackend 2 ["/s"] "/dst" overwriteHandler).1 ∧
    Ev.moveFile .fromB "/s/f" "/dst/s/f" true ∈
      (copy_files_with_progress conflictCopyBackend 2 ["/s"] "/dst" overwriteHandler).1 ∧
    Ev.copyFile .fromB "/s/f" "/dst/s/f" true ∉
      (copy_files_with_progress conflictCopyBackend 2 ["/s"] "/dst" overwriteHandler).1 := by
  decide

/-- C4 counterexample: after a failed transfer attempt (error "already
exists", file size 5), `update_and_notify_progress_handler` advances
`processed_bytes` from 0 to 5 even though the transfer failed, and after
a successful attempt it leaves `processed_files` at 0 instead of
advancing it by one — refuting both counter clauses of the claim. -/
theorem C4_counterexample_processed_counters :
    (update_and_notify_progress_handler sampleProgress skipHandler
        (some (.FileAlreadyExists "/d")) .File "/s" "/d" (some 5)).2.processed_bytes = 5 ∧
    (update_and_notify_progress_handler sampleProgress skipHandler
        none .File "/s" "/d" (some 5)).2.processed_files = 0 ∧
    (update_and_notify_progress_handler sampleProgress skipHandler
        none .File "/s" "/d" (some 5)).2.state = .Normal := by
  decide

/-- C4 (amended): after each individual transfer attempt, the handler is
invoked with the updated snapshot whose state is `Normal` on success,
`Exists(conflict)` when the error satisfies the already-exists
predicate, and `Other(error)` otherwise; `processedBytes` is advanced by
the file's size regardless of success or failure, and `processedFiles`
is never advanced. -/
theorem C4_amended_update_and_notify (progress : TransitProgress) (handler : Handler)
    (error : Option Err) (ft : FileType) (path dest : String) (size : Option Nat) :
    (update_and_notify_progress_handler progress handler error ft path dest size).2.state =
      (match error with
        | some e =>
          if e.is_already_exists_error then
            TransitState.Exists { file_type := ft, origin := path, destination := dest }
          else TransitState.Other e
        | none => TransitState.Normal) ∧
    (update_and_notify_progress_handler progress handler error ft path dest size).2.processed_bytes
      = progress.processed_bytes + size.getD 0 ∧
    (update_and_notify_progress_handler progress handler error ft path dest size).2.processed_files
      = progress.processed_files ∧
    (update_and_notify_progress_handler progress handler error ft path dest size).2.total_bytes
      = progress.total_bytes ∧
    (update_and_notify_progress_handler progress handler error ft path dest size).2.total_files
      = progress.total_files ∧
    (update_and_notify_progress_handler progress handler error ft path dest size).1
      = handler (update_and_notify_progress_handler progress handler error ft path dest size).2 := by
  cases error with
  | none => exact ⟨rfl, rfl, rfl, rfl, rfl, rfl⟩
  | some e =>
    refine ⟨?_, rfl, rfl, rfl, rfl, rfl⟩
    by_cases h : e.is_already_exists_error = true
    · simp [update_and_notify_progress_handler, h]
    · simp only [Bool.not_eq_true] at h
      simp [update_and_notify_progress_handler, h]

/-- C10: converting mode 0o100 (owner-execute only) to the structured
permission triple sets `group.execute` and `other.execute` as well
(unix.rs reads the OWNER_EXEC/OWNER_WRITE bits for the group and other
fields), so the round trip yields 0o111 instead of 0o100 — refuting
both the round-trip identity and the per-field independence claim. -/
theorem C10_permissions_roundtrip_bug :
    u32OfPermissions (permissionsOfU32 0o100) = 0o111 ∧
    (0o100 : Nat) % 2 ^ 32 &&& 0o777 = 0o100 ∧
    (0o111 : Nat) ≠ 0o100 ∧
    (permissionsOfU32 0o100).group.execute = true ∧
    (permissionsOfU32 0o100).other.execute = true ∧
    (permissionsOfU32 0o020).group.write = false ∧
    (permissionsOfU32 0o200).group.write = true := by
  decide

/-- C6 counterexample: `copy_files_with_progress` invoked on a top-level
`Symlink` aborts with `CannotCopyOrMoveFileType(Symlink)` instead of
transferring it (its top-level match accepts only `FileType::File`),
refuting the claim that every engine transfer operation treats `Symlink`
as a transferable leaf. -/
theorem C6_counterexample_symlink_rejected :
    (copy_files_with_progress (treeBackend snapLink) 2 ["/s"] "/dst" skipHandler).2
      = .error (.CannotCopyOrMoveFileType .Symlink) ∧
    (treeBackend snapLink).get_file_type "/s" = .ok .Symlink := by
  decide

/-- C8: every one of the eight copy/move variants begins with an
existence check of the destination root on the destination backend;
when that check reports `false`, the operation stops with
`FileNonexistent(destination)` having issued exactly that one query —
in particular no create/copy/move/remove call on either backend. -/
theorem C8_nonexistent_destination_aborts_all_variants
    (b bf : Backend) (fromPaths : List String) (dst : String) (fuel : Nat)
    (handler : Handler) (h : b.existsQ dst = .ok false) :
    move_files b fuel fromPaths dst
      = ([.qexists .fromB dst], .error (.FileNonexistent dst)) ∧
    copy_files b fuel fromPaths dst
      = ([.qexists .fromB dst], .error (.FileNonexistent dst)) ∧
    move_files_with_progress b fuel fromPaths dst handler
      = ([.qexists .fromB dst], .error (.FileNonexistent dst)) ∧
    copy_files_with_progress b fuel fromPaths dst handler
      = ([.qexists .fromB dst], .error (.FileNonexistent dst)) ∧
    move_files_between bf b fuel fromPaths dst
      = ([.qexists .toB dst], .error (.FileNonexistent dst)) ∧
    copy_files_between bf b fuel fromPaths dst
      = ([.qexists .toB dst], .error (.FileNonexistent dst)) ∧
    move_files_between_with_progress bf b fuel fromPaths dst handler
      = ([.qexists .toB dst], .error (.FileNonexistent dst)) ∧
    copy_files_between_with_progress bf b fuel fromPaths dst handler
      = ([.qexists .toB dst], .error (.FileNonexistent dst)) := by
  refine ⟨?_, ?_, ?_, ?_, ?_, ?_, ?_, ?_⟩ <;>
    simp [move_files, copy_files, move_files_with_progress, copy_files_with_progress,
      move_files_between, copy_files_between, move_files_between_with_progress,
      copy_files_between_with_progress, Backend.existsT, h, bindE]

/-- C9: in each of the eight recursive copy/move variants, when
`create_dir` for the destination directory of a queued source directory
`p` fails, an error satisfying the already-exists predicate is
swallowed — the operation goes on to list `p` and finishes the
traversal over the existing directory — while any other error is
returned as the operation's result, the trace ending at that
`create_dir` call. -/
theorem C9_create_dir_conflict_tolerated
    (b bf bt : Backend) (p dst : String) (e : Err) (fuel : Nat) (handler : Handler)
    (hx : b.existsQ dst = .ok true)
    (hg : b.get_file_type p = .ok .Dir)
    (hr : b.retrieve_files [p] = .ok [dirFile p])
    (hd : b.read_dir p = .ok [])
    (hc : b.create_dir (dst ++ "/" ++ extract_lowest_path_item p) = .error e)
    (hm : b.remove_dir p = .ok ())
    (hx2 : bt.existsQ dst = .ok true)
    (hg2 : bf.get_file_type p = .ok .Dir)
    (hr2 : bf.retrieve_files [p] = .ok [dirFile p])
    (hd2 : bf.read_dir p = .ok [])
    (hc2 : bt.create_dir (dst ++ "/" ++ extract_lowest_path_item p) = .error e)
    (hm2 : bf.remove_dir p = .ok ()) :
    (e.is_already_exists_error = true →
      move_files b (fuel + 1) [p] dst
        = ([.qexists .fromB dst, .getFileType .fromB p,
            .createDir .fromB (dst ++ "/" ++ extract_lowest_path_item p),
            .readDir .fromB p, .removeDir .fromB p], .ok ()) ∧
      copy_files b (fuel + 1) [p] dst
        = ([.qexists .fromB dst, .getFileType .fromB p,
            .createDir .fromB (dst ++ "/" ++ extract_lowest_path_item p),
            .readDir .fromB p], .ok ()) ∧
      move_files_with_progress b (fuel + 1) [p] dst handler
        = ([.qexists .fromB dst, .retrieveFiles .fromB [p], .readDir .fromB p,
            .retrieveFiles .fromB [p],
            .createDir .fromB (dst ++ "/" ++ extract_lowest_path_item p),
            .readDir .fromB p, .removeDir .fromB p], .ok ()) ∧
      copy_files_with_progress b (fuel + 1) [p] dst handler
        = ([.qexists .fromB dst, .retrieveFiles .fromB [p], .readDir .fromB p,
            .retrieveFiles .fromB [p],
            .createDir .fromB (dst ++ "/" ++ extract_lowest_path_item p),
            .readDir .fromB p], .ok ()) ∧
      move_files_between bf bt (fuel + 1) [p] dst
        = ([.qexists .toB dst, .getFileType .fromB p,
            .createDir .toB (dst ++ "/" ++ extract_lowest_path_item p),
            .readDir .fromB p, .removeDir .fromB p], .ok ()) ∧
      copy_files_between bf bt (fuel + 1) [p] dst
        = ([.qexists .toB dst, .getFileType .fromB p,
            .createDir .toB (dst ++ "/" ++ extract_lowest_path_item p),
            .readDir .fromB p], .ok ()) ∧
      move_files_between_with_progress bf bt (fuel + 1) [p] dst handler
        = ([.qexists .toB dst, .retrieveFiles .fromB [p], .readDir .fromB p,
            .retrieveFiles .fromB [p],
            .createDir .toB (dst ++ "/" ++ extract_lowest_path_item p),
            .readDir .fromB p, .removeDir .fromB p], .ok ()) ∧
      copy_files_between_with_progress bf bt (fuel + 1) [p] dst handler
        = ([.qexists .toB dst, .retrieveFiles .fromB [p], .readDir .fromB p,
            .retrieveFiles .fromB [p],
            .createDir .toB (dst ++ "/" ++ extract_lowest_path_item p),
            .readDir .fromB p], .ok ())) ∧
    (e.is_already_exists_error = false →
      move_files b (fuel + 1) [p] dst
        = ([.qexists .fromB dst, .getFileType .fromB p,
            .createDir .fromB (dst ++ "/" ++ extract_lowest_path_item p)], .error e) ∧
      copy_files b (fuel + 1) [p] dst
        = ([.qexists .fromB dst, .getFileType .fromB p,
            .createDir .fromB (dst ++ "/" ++ extract_lowest_path_item p)], .error e) ∧
      move_files_with_progress b (fuel + 1) [p] dst handler
        = ([.qexists .fromB dst, .retrieveFiles .fromB [p], .readDir .fromB p,
            .retrieveFiles .fromB [p],
            .createDir .fromB (dst ++ "/" ++ extract_lowest_path_item p)], .error e) ∧
      copy_files_with_progress b (fuel + 1) [p] dst handler
        = ([.qexists .fromB dst, .retrieveFiles .fromB [p], .readDir .fromB p,
            .retrieveFiles .fromB [p],
            .createDir .fromB (dst ++ "/" ++ extract_lowest_path_item p)], .error e) ∧
      move_files_between bf bt (fuel + 1) [p] dst
        = ([.qexists .toB dst, .getFileType .fromB p,
            .createDir .toB (dst ++ "/" ++ extract_lowest_path_item p)], .error e) ∧
      copy_files_between bf bt (fuel + 1) [p] dst
        = ([.qexists .toB dst, .getFileType .fromB p,
            .createDir .toB (dst ++ "/" ++ extract_lowest_path_item p)], .error e) ∧
      move_files_between_with_progress bf bt (fuel + 1) [p] dst handler
        = ([.qexists .toB dst, .retrieveFiles .fromB [p], .readDir .fromB p,
            .retrieveFiles .fromB [p],
            .createDir .toB (dst ++ "/" ++ extract_lowest_path_item p)], .error e) ∧
      copy_files_between_with_progress bf bt (fuel + 1) [p] dst handler
        = ([.qexists .toB dst, .retrieveFiles .fromB [p], .readDir .fromB p,
            .retrieveFiles .fromB [p],
            .createDir .toB (dst ++ "/" ++ extract_lowest_path_item p)], .error e)) := by
  constructor <;> intro he <;> refine ⟨?_, ?_, ?_, ?_, ?_, ?_, ?_, ?_⟩ <;>
    simp [move_files, copy_files, move_files_with_progress, copy_files_with_progress,
      move_files_between, copy_files_between, move_files_between_with_progress,
      copy_files_between_with_progress, moveFilesTop, copyFilesTop, moveBetweenTop,
      copyBetweenTop, moveFilesTopP, copyFilesTopP, moveBetweenTopP, copyBetweenTopP,
      moveLoop, copyLoop, moveBetweenLoop, copyBetweenLoop, moveLoopP, copyLoopP,
      moveBetweenLoopP, copyBetweenLoopP, moveLevel, copyLevel, moveBetweenLevel,
      copyBetweenLevel, moveLevelP, copyLevelP, moveBetweenLevelP, copyBetweenLevelP,
      moveProcessDir, copyProcessDir, moveBetweenProcessDir, copyBetweenProcessDir,
      moveChildren, copyChildren, moveBetweenChildren, copyBetweenChildren,
      moveChildrenP, copyChildrenP, moveBetweenChildrenP, copyBetweenChildrenP,
      createDirTolerated, removePhase, calculate_total_size, calcLoop, calcLevel,
      tallyFiles, dirFile, TransitProgress.default, Backend.existsT, Backend.getFileTypeT,
      Backend.retrieveFilesT, Backend.readDirT, Backend.removeDirT, bindE,
      hx, hg, hr, hd, hc, hm, hx2, hg2, hr2, hd2, hc2, hm2, he]

/-- C9 witness: the statement instantiated at `conflictDirBackend`
(whose `create_dir` always reports "already exists"), source directory
/s and destination /dst: the tolerated branch applies. -/
theorem C9_create_dir_conflict_witness :
    copy_files conflictDirBackend 1 ["/s"] "/dst"
      = ([.qexists .fromB "/dst", .getFileType .fromB "/s",
          .createDir .fromB ("/dst" ++ "/" ++ extract_lowest_path_item "/s"),
          .readDir .fromB "/s"], .ok ()) :=
  ((C9_create_dir_conflict_tolerated conflictDirBackend conflictDirBackend
      conflictDirBackend "/s" "/dst" (.FileAlreadyExists ("/dst" ++ "/" ++
        extract_lowest_path_item "/s")) 0 skipHandler
      (by decide) (by decide) (by decide) (by decide) (by decide) (by decide)
      (by decide) (by decide) (by decide) (by decide) (by decide) (by decide)).1
    (by decide)).2.1

/-- C6 (amended): type dispatch of the eight transfer variants, for a
run over pinned backend responses (destination exists, all mutations
succeed, the always-continue handler).  `move_files`, `copy_files`,
`move_files_with_progress` and `copy_files_between` accept both `File`
and `Symlink` — top-level and as children — issuing the transfer call;
`move_files_between_with_progress` accepts only `File` at top level but
`File` and `Symlink` as children; `copy_files_with_progress`,
`move_files_between` and `copy_files_between_with_progress` accept only
`File` at every position, aborting on `Symlink` with
`CannotCopyOrMoveFileType(Symlink)`; `Socket`, `Fifo`, `CharDevice`,
`BlockDevice` and `Unknown` abort every variant at every position with
`CannotCopyOrMoveFileType`. -/
theorem C6_amended_type_dispatch
    (b bf bt : Backend) (q p dst : String) (t : FileType) (g f : File) (fuel : Nat)
    (hx : b.existsQ dst = .ok true) (hx2 : bt.existsQ dst = .ok true)
    (hgt : g.metadata.type = t) (hgp : g.path = q) (hft : f.metadata.type = t)
    (h1 : b.get_file_type q = .ok t) (h2 : b.retrieve_files [q] = .ok [g])
    (h3 : bf.get_file_type q = .ok t) (h4 : bf.retrieve_files [q] = .ok [g])
    (h5 : b.get_file_type p = .ok .Dir) (h6 : b.retrieve_files [p] = .ok [dirFile p])
    (h7 : b.read_dir p = .ok [f])
    (h8 : b.create_dir (dst ++ "/" ++ extract_lowest_path_item p) = .ok ())
    (h9 : bf.get_file_type p = .ok .Dir) (h10 : bf.retrieve_files [p] = .ok [dirFile p])
    (h11 : bf.read_dir p = .ok [f])
    (h12 : bt.create_dir (dst ++ "/" ++ extract_lowest_path_item p) = .ok ())
    (hmvq : b.move_file q (dst ++ "/" ++ extract_lowest_path_item q) false = .ok ())
    (hcpq : b.copy_file q (dst ++ "/" ++ extract_lowest_path_item q) false = .ok ())
    (hmvf : b.move_file f.path
      (dst ++ "/" ++ extract_lowest_path_item p ++ "/" ++ f.name) false = .ok ())
    (hcpf : b.copy_file f.path
      (dst ++ "/" ++ extract_lowest_path_item p ++ "/" ++ f.name) false = .ok ())
    (hrmp : b.remove_dir p = .ok ())
    (hrcq : bf.retrieve_file_content q = .ok [])
    (hcfq : bt.create_file (dst ++ "/" ++ extract_lowest_path_item q) false (some []) = .ok ())
    (hrfq : bf.remove_file q = .ok ())
    (hrcf : bf.retrieve_file_content f.path = .ok [])
    (hcff : bt.create_file
      (dst ++ "/" ++ extract_lowest_path_item p ++ "/" ++ f.name) false (some []) = .ok ())
    (hrff : bf.remove_file f.path = .ok ())
    (hcpf2 : bf.copy_file f.path
      (dst ++ "/" ++ extract_lowest_path_item p ++ "/" ++ f.name) false = .ok ())
    (hrmp2 : bf.remove_dir p = .ok ()) :
    -- move_files: File and Symlink transferable, top level and children
    (t = .File ∨ t = .Symlink →
      (move_files b (fuel + 1) [q] dst).2 = .ok () ∧
      Ev.moveFile .fromB q (dst ++ "/" ++ extract_lowest_path_item q) false
        ∈ (move_files b (fuel + 1) [q] dst).1) ∧
    (t = .Socket ∨ t = .Fifo ∨ t = .CharDevice ∨ t = .BlockDevice ∨ t = .Unknown →
      (move_files b (fuel + 1) [q] dst).2 = .error (.CannotCopyOrMoveFileType t)) ∧
    (t = .File ∨ t = .Symlink →
      (move_files b (fuel + 1) [p] dst).2 = .ok () ∧
      Ev.moveFile .fromB f.path (dst ++ "/" ++ extract_lowest_path_item p ++ "/" ++ f.name)
        false ∈ (move_files b (fuel + 1) [p] dst).1) ∧
    (t = .Socket ∨ t = .Fifo ∨ t = .CharDevice ∨ t = .BlockDevice ∨ t = .Unknown →
      (move_files b (fuel + 1) [p] dst).2 = .error (.CannotCopyOrMoveFileType t)) ∧
    -- copy_files: File and Symlink transferable, top level and children
    (t = .File ∨ t = .Symlink →
      (copy_files b (fuel + 1) [q] dst).2 = .ok () ∧
      Ev.copyFile .fromB q (dst ++ "/" ++ extract_lowest_path_item q) false
        ∈ (copy_files b (fuel + 1) [q] dst).1) ∧
    (t = .Socket ∨ t = .Fifo ∨ t = .CharDevice ∨ t = .BlockDevice ∨ t = .Unknown →
      (copy_files b (fuel + 1) [q] dst).2 = .error (.CannotCopyOrMoveFileType t)) ∧
    (t = .File ∨ t = .Symlink →
      (copy_files b (fuel + 1) [p] dst).2 = .ok () ∧
      Ev.copyFile .fromB f.path (dst ++ "/" ++ extract_lowest_path_item p ++ "/" ++ f.name)
        false ∈ (copy_files b (fuel + 1) [p] dst).1) ∧
    (t = .Socket ∨ t = .Fifo ∨ t = .CharDevice ∨ t = .BlockDevice ∨ t = .Unknown →
      (copy_files b (fuel + 1) [p] dst).2 = .error (.CannotCopyOrMoveFileType t)) ∧
    -- move_files_with_progress: File and Symlink transferable
    (t = .File ∨ t = .Symlink →
      (move_files_with_progress b (fuel + 1) [q] dst skipHandler).2 = .ok () ∧
      Ev.moveFile .fromB q (dst ++ "/" ++ extract_lowest_path_item q) false
        ∈ (move_files_with_progress b (fuel + 1) [q] dst skipHandler).1) ∧
    (t = .Socket ∨ t = .Fifo ∨ t = .CharDevice ∨ t = .BlockDevice ∨ t = .Unknown →
      (move_files_with_progress b (fuel + 1) [q] dst skipHandler).2
        = .error (.CannotCopyOrMoveFileType t)) ∧
    (t = .File ∨ t = .Symlink →
      (move_files_with_progress b (fuel + 1) [p] dst skipHandler).2 = .ok () ∧
      Ev.moveFile .fromB f.path (dst ++ "/" ++ extract_lowest_path_item p ++ "/" ++ f.name)
        false ∈ (move_files_with_progress b (fuel + 1) [p] dst skipHandler).1) ∧
    (t = .Socket ∨ t = .Fifo ∨ t = .CharDevice ∨ t = .BlockDevice ∨ t = .Unknown →
      (move_files_with_progress b (fuel + 1) [p] dst skipHandler).2
        = .error (.CannotCopyOrMoveFileType t)) ∧
    -- copy_files_with_progress: File only; Symlink aborts
    (t = .File →
      (copy_files_with_progress b (fuel + 1) [q] dst skipHandler).2 = .ok () ∧
      Ev.copyFile .fromB q (dst ++ "/" ++ extract_lowest_path_item q) false
        ∈ (copy_files_with_progress b (fuel + 1) [q] dst skipHandler).1) ∧
    (t = .Symlink ∨ t = .Socket ∨ t = .Fifo ∨ t = .CharDevice ∨ t = .BlockDevice ∨
        t = .Unknown →
      (copy_files_with_progress b (fuel + 1) [q] dst skipHandler).2
        = .error (.CannotCopyOrMoveFileType t)) ∧
    (t = .File →
      (copy_files_with_progress b (fuel + 1) [p] dst skipHandler).2 = .ok () ∧
      Ev.copyFile .fromB f.path (dst ++ "/" ++ extract_lowest_path_item p ++ "/" ++ f.name)
        false ∈ (copy_files_with_progress b (fuel + 1) [p] dst skipHandler).1) ∧
    (t = .Symlink ∨ t = .Socket ∨ t = .Fifo ∨ t = .CharDevice ∨ t = .BlockDevice ∨
        t = .Unknown →
      (copy_files_with_progress b (fuel + 1) [p] dst skipHandler).2
        = .error (.CannotCopyOrMoveFileType t)) ∧
    -- move_files_between: File only, both positions
    (t = .File →
      (move_files_between bf bt (fuel + 1) [q] dst).2 = .ok () ∧
      Ev.createFile .toB (dst ++ "/" ++ extract_lowest_path_item q) false (some [])
        ∈ (move_files_between bf bt (fuel + 1) [q] dst).1) ∧
    (t = .Symlink ∨ t = .Socket ∨ t = .Fifo ∨ t = .CharDevice ∨ t = .BlockDevice ∨
        t = .Unknown →
      (move_files_between bf bt (fuel + 1) [q] dst).2
        = .error (.CannotCopyOrMoveFileType t)) ∧
    (t = .File →
      (move_files_between bf bt (fuel + 1) [p] dst).2 = .ok () ∧
      Ev.createFile .toB (dst ++ "/" ++ extract_lowest_path_item p ++ "/" ++ f.name) false
        (some []) ∈ (move_files_between bf bt (fuel + 1) [p] dst).1) ∧
    (t = .Symlink ∨ t = .Socket ∨ t = .Fifo ∨ t = .CharDevice ∨ t = .BlockDevice ∨
        t = .Unknown →
      (move_files_between bf bt (fuel + 1) [p] dst).2
        = .error (.CannotCopyOrMoveFileType t)) ∧
    -- copy_files_between: File and Symlink transferable, both positions
    (t = .File ∨ t = .Symlink →
      (copy_files_between bf bt (fuel + 1) [q] dst).2 = .ok () ∧
      Ev.createFile .toB (dst ++ "/" ++ extract_lowest_path_item q) false (some [])
        ∈ (copy_files_between bf bt (fuel + 1) [q] dst).1) ∧
    (t = .Socket ∨ t = .Fifo ∨ t = .CharDevice ∨ t = .BlockDevice ∨ t = .Unknown →
      (copy_files_between bf bt (fuel + 1) [q] dst).2
        = .error (.CannotCopyOrMoveFileType t)) ∧
    (t = .File ∨ t = .Symlink →
      (copy_files_between bf bt (fuel + 1) [p] dst).2 = .ok () ∧
      Ev.createFile .toB (dst ++ "/" ++ extract_lowest_path_item p ++ "/" ++ f.name) false
        (some []) ∈ (copy_files_between bf bt (fuel + 1) [p] dst).1) ∧
    (t = .Socket ∨ t = .Fifo ∨ t = .CharDevice ∨ t = .BlockDevice ∨ t = .Unknown →
      (copy_files_between bf bt (fuel + 1) [p] dst).2
        = .error (.CannotCopyOrMoveFileType t)) ∧
    -- move_files_between_with_progress: File only at top, File|Symlink as child
    (t = .File →
      (move_files_between_with_progress bf bt (fuel + 1) [q] dst skipHandler).2 = .ok () ∧
      Ev.createFile .toB (dst ++ "/" ++ extract_lowest_path_item q) false (some [])
        ∈ (move_files_between_with_progress bf bt (fuel + 1) [q] dst skipHandler).1) ∧
    (t = .Symlink ∨ t = .Socket ∨ t = .Fifo ∨ t = .CharDevice ∨ t = .BlockDevice ∨
        t = .Unknown →
      (move_files_between_with_progress bf bt (fuel + 1) [q] dst skipHandler).2
        = .error (.CannotCopyOrMoveFileType t)) ∧
    (t = .File ∨ t = .Symlink →
      (move_files_between_with_progress bf bt (fuel + 1) [p] dst skipHandler).2 = .ok () ∧
      Ev.createFile .toB (dst ++ "/" ++ extract_lowest_path_item p ++ "/" ++ f.name) false
        (some [])
        ∈ (move_files_between_with_progress bf bt (fuel + 1) [p] dst skipHandler).1) ∧
    (t = .Socket ∨ t = .Fifo ∨ t = .CharDevice ∨ t = .BlockDevice ∨ t = .Unknown →
      (move_files_between_with_progress bf bt (fuel + 1) [p] dst skipHandler).2
        = .error (.CannotCopyOrMoveFileType t)) ∧
    -- copy_files_between_with_progress: File only, both positions
    (t = .File →
      (copy_files_between_with_progress bf bt (fuel + 1) [q] dst skipHandler).2 = .ok () ∧
      Ev.createFile .toB (dst ++ "/" ++ extract_lowest_path_item q) false (some [])
        ∈ (copy_files_between_with_progress bf bt (fuel + 1) [q] dst skipHandler).1) ∧
    (t = .Symlink ∨ t = .Socket ∨ t = .Fifo ∨ t = .CharDevice ∨ t = .BlockDevice ∨
        t = .Unknown →
      (copy_files_between_with_progress bf bt (fuel + 1) [q] dst skipHandler).2
        = .error (.CannotCopyOrMoveFileType t)) ∧
    (t = .File →
      (copy_files_between_with_progress bf bt (fuel + 1) [p] dst skipHandler).2 = .ok () ∧
      Ev.copyFile .fromB f.path (dst ++ "/" ++ extract_lowest_path_item p ++ "/" ++ f.name)
        false ∈ (copy_files_between_with_progress bf bt (fuel + 1) [p] dst skipHandler).1) ∧
    (t = .Symlink ∨ t = .Socket ∨ t = .Fifo ∨ t = .CharDevice ∨ t = .BlockDevice ∨
        t = .Unknown →
      (copy_files_between_with_progress bf bt (fuel + 1) [p] dst skipHandler).2
        = .error (.CannotCopyOrMoveFileType t)) := by
  refine ⟨?_, ?_, ?_, ?_, ?_, ?_, ?_, ?_, ?_, ?_, ?_, ?_, ?_, ?_, ?_, ?_, ?_, ?_, ?_, ?_,
    ?_, ?_, ?_, ?_, ?_, ?_, ?_, ?_, ?_, ?_, ?_, ?_⟩ <;>
  intro h <;>
  first
  | (rcases h with rfl | rfl <;>
      simp [move_files, copy_files, move_files_with_progress, copy_files_with_progress,
        move_files_between, copy_files_between, move_files_between_with_progress,
        copy_files_between_with_progress, moveFilesTop, copyFilesTop, moveBetweenTop,
        copyBetweenTop, moveFilesTopP, copyFilesTopP, moveBetweenTopP, copyBetweenTopP,
        moveLoop, copyLoop, moveBetweenLoop, copyBetweenLoop, moveLoopP, copyLoopP,
        moveBetweenLoopP, copyBetweenLoopP, moveLevel, copyLevel, moveBetweenLevel,
        copyBetweenLevel, moveLevelP, copyLevelP, moveBetweenLevelP, copyBetweenLevelP,
        moveProcessDir, copyProcessDir, moveBetweenProcessDir, copyBetweenProcessDir,
        moveChildren, copyChildren, moveBetweenChildren, copyBetweenChildren,
        moveChildrenP, copyChildrenP, moveBetweenChildrenP, copyBetweenChildrenP,
        createDirTolerated, removePhase, calculate_total_size, calcLoop, calcLevel,
        tallyFiles, dirFile, TransitProgress.default, progressStep,
        update_and_notify_progress_handler, errOf, skipHandler, copy_file_between,
        move_file_between, Backend.existsT, Backend.getFileTypeT, Backend.retrieveFilesT,
        Backend.retrieveFileContentT, Backend.readDirT, Backend.createFileT,
        Backend.moveFileT, Backend.copyFileT, Backend.removeFileT, Backend.removeDirT,
        bindE, hx, hx2, hgt, hgp, hft, h1, h2, h3, h4, h5, h6, h7, h8, h9, h10, h11, h12,
        hmvq, hcpq, hmvf, hcpf, hrmp, hrcq, hcfq, hrfq, hrcf, hcff, hrff, hcpf2, hrmp2])
  | (rcases h with rfl | rfl | rfl | rfl | rfl <;>
      simp [move_files, copy_files, move_files_with_progress, copy_files_with_progress,
        move_files_between, copy_files_between, move_files_between_with_progress,
        copy_files_between_with_progress, moveFilesTop, copyFilesTop, moveBetweenTop,
        copyBetweenTop, moveFilesTopP, copyFilesTopP, moveBetweenTopP, copyBetweenTopP,
        moveLoop, copyLoop, moveBetweenLoop, copyBetweenLoop, moveLoopP, copyLoopP,
        moveBetweenLoopP, copyBetweenLoopP, moveLevel, copyLevel, moveBetweenLevel,
        copyBetweenLevel, moveLevelP, copyLevelP, moveBetweenLevelP, copyBetweenLevelP,
        moveProcessDir, copyProcessDir, moveBetweenProcessDir, copyBetweenProcessDir,
        moveChildren, copyChildren, moveBetweenChildren, copyBetweenChildren,
        moveChildrenP, copyChildrenP, moveBetweenChildrenP, copyBetweenChildrenP,
        createDirTolerated, removePhase, calculate_total_size, calcLoop, calcLevel,
        tallyFiles, dirFile, TransitProgress.default, progressStep,
        update_and_notify_progress_handler, errOf, skipHandler, copy_file_between,
        move_file_between, Backend.existsT, Backend.getFileTypeT, Backend.retrieveFilesT,
        Backend.retrieveFileContentT, Backend.readDirT, Backend.createFileT,
        Backend.moveFileT, Backend.copyFileT, Backend.removeFileT, Backend.removeDirT,
        bindE, hx, hx2, hgt, hgp, hft, h1, h2, h3, h4, h5, h6, h7, h8, h9, h10, h11, h12,
        hmvq, hcpq, hmvf, hcpf, hrmp, hrcq, hcfq, hrfq, hrcf, hcff, hrff, hcpf2, hrmp2])
  | (rcases h with rfl | rfl | rfl | rfl | rfl | rfl <;>
      simp [move_files, copy_files, move_files_with_progress, copy_files_with_progress,
        move_files_between, copy_files_between, move_files_between_with_progress,
        copy_files_between_with_progress, moveFilesTop, copyFilesTop, moveBetweenTop,
        copyBetweenTop, moveFilesTopP, copyFilesTopP, moveBetweenTopP, copyBetweenTopP,
        moveLoop, copyLoop, moveBetweenLoop, copyBetweenLoop, moveLoopP, copyLoopP,
        moveBetweenLoopP, copyBetweenLoopP, moveLevel, copyLevel, moveBetweenLevel,
        copyBetweenLevel, moveLevelP, copyLevelP, moveBetweenLevelP, copyBetweenLevelP,
        moveProcessDir, copyProcessDir, moveBetweenProcessDir, copyBetweenProcessDir,
        moveChildren, copyChildren, moveBetweenChildren, copyBetweenChildren,
        moveChildrenP, copyChildrenP, moveBetweenChildrenP, copyBetweenChildrenP,
        createDirTolerated, removePhase, calculate_total_size, calcLoop, calcLevel,
        tallyFiles, dirFile, TransitProgress.default, progressStep,
        update_and_notify_progress_handler, errOf, skipHandler, copy_file_between,
        move_file_between, Backend.existsT, Backend.getFileTypeT, Backend.retrieveFilesT,
        Backend.retrieveFileContentT, Backend.readDirT, Backend.createFileT,
        Backend.moveFileT, Backend.copyFileT, Backend.removeFileT, Backend.removeDirT,
        bindE, hx, hx2, hgt, hgp, hft, h1, h2, h3, h4, h5, h6, h7, h8, h9, h10, h11, h12,
        hmvq, hcpq, hmvf, hcpf, hrmp, hrcq, hcfq, hrfq, hrcf, hcff, hrff, hcpf2, hrmp2])

/-- C6 witness: the type-dispatch theorem instantiated at the
`snapDispatch` backend with t = Symlink: `move_files` transfers the
top-level symlink /q. -/
theorem C6_amended_type_dispatch_witness :
    (move_files (treeBackend snapDispatch) 1 ["/q"] "/dst").2 = .ok () ∧
    Ev.moveFile .fromB "/q" ("/dst" ++ "/" ++ extract_lowest_path_item "/q") false
      ∈ (move_files (treeBackend snapDispatch) 1 ["/q"] "/dst").1 :=
  (C6_amended_type_dispatch (treeBackend snapDispatch) (treeBackend snapDispatch)
    (treeBackend snapDispatch) "/q" "/p" "/dst" .Symlink gLink fLinkChild 0
    (by decide) (by decide) (by decide) (by decide) (by decide) (by decide) (by decide)
    (by decide) (by decide) (by decide) (by decide) (by decide) (by decide) (by decide)
    (by decide) (by decide) (by decide) (by decide) (by decide) (by decide) (by decide)
    (by decide) (by decide) (by decide) (by decide) (by decide) (by decide) (by decide)
    (by decide) (by decide)).1 (Or.inr rfl)

/-! ## Snapshot lemmas (shared by the size and move theorems) -/

@[simp] theorem height_leaf (ty : FileType) (s : Option Nat) :
    (FsTree.leaf ty s).height = 0 := rfl

@[simp] theorem height_node (cs : FsForest) :
    (FsTree.node cs).height = cs.height + 1 := rfl

@[simp] theorem fheight_nil : FsForest.nil.height = 0 := rfl

@[simp] theorem fheight_cons (n : String) (t : FsTree) (rest : FsForest) :
    (FsForest.cons n t rest).height = max t.height rest.height := rfl

@[simp] theorem leafSum_leaf (ty : FileType) (s : Option Nat) :
    (FsTree.leaf ty s).leafSum = s.getD 0 := rfl

@[simp] theorem leafSum_node (cs : FsForest) :
    (FsTree.node cs).leafSum = cs.leafSum := rfl

@[simp] theorem fleafSum_nil : FsForest.nil.leafSum = 0 := rfl

@[simp] theorem fleafSum_cons (n : String) (t : FsTree) (rest : FsForest) :
    (FsForest.cons n t rest).leafSum = t.leafSum + rest.leafSum := rfl

@[simp] theorem okB_leaf (P : FileType → Bool) (ty : FileType) (s : Option Nat) :
    (FsTree.leaf ty s).okB P = P ty := rfl

@[simp] theorem okB_node (P : FileType → Bool) (cs : FsForest) :
    (FsTree.node cs).okB P = cs.okB P := rfl

@[simp] theorem fokB_nil (P : FileType → Bool) : FsForest.nil.okB P = true := rfl

@[simp] theorem fokB_cons (P : FileType → Bool) (n : String) (t : FsTree) (rest : FsForest) :
    (FsForest.cons n t rest).okB P = (t.okB P && rest.okB P) := rfl

@[simp] theorem immSize_nil : FsForest.nil.immSize = 0 := rfl

@[simp] theorem immSize_cons_leaf (n : String) (ty : FileType) (s : Option Nat)
    (rest : FsForest) :
    (FsForest.cons n (.leaf ty s) rest).immSize = s.getD 0 + rest.immSize := rfl

@[simp] theorem immSize_cons_node (n : String) (cs : FsForest) (rest : FsForest) :
    (FsForest.cons n (.node cs) rest).immSize = rest.immSize := rfl

theorem tb_read_dir_node {flat : Snap} {p : String} {k : Nat} {cs : FsForest}
    (hl : lookupS flat p = some (k, FsTree.node cs)) :
    (treeBackend flat).read_dir p = .ok (forestFiles p cs) := by
  simp [treeBackend, hl]

theorem childDirs_node {flat : Snap} {d : String} {k : Nat} {cs : FsForest}
    (hl : lookupS flat d = some (k, FsTree.node cs)) :
    childDirs flat d = forestDirPaths d cs := by
  rw [childDirs, hl]

theorem immAt_node {flat : Snap} {d : String} {k : Nat} {cs : FsForest}
    (hl : lookupS flat d = some (k, FsTree.node cs)) :
    immAt flat d = cs.immSize := by
  rw [immAt, hl]

theorem subSum_node {flat : Snap} {d : String} {k : Nat} {cs : FsForest}
    (hl : lookupS flat d = some (k, FsTree.node cs)) :
    subSum flat d = cs.leafSum := by
  simp [subSum, hl]

theorem lookupS_of_mem : ∀ {flat : Snap} {p : String} {k : Nat} {t : FsTree},
    (flat.map Prod.fst).Nodup → (p, k, t) ∈ flat → lookupS flat p = some (k, t) := by
  intro flat
  induction flat with
  | nil => intro p k t _ hm; cases hm
  | cons e rest ih =>
    intro p k t hnd hm
    obtain ⟨q, k2, t2⟩ := e
    rw [List.map_cons, List.nodup_cons] at hnd
    rcases List.mem_cons.mp hm with heq | hm2
    · cases heq
      simp [lookupS]
    · have hp : p ∈ rest.map Prod.fst := List.mem_map.mpr ⟨(p, k, t), hm2, rfl⟩
      have hq : ¬ q = p := by intro hqp; apply hnd.1; rw [hqp]; exact hp
      simp [lookupS, hq, ih hnd.2 hm2]

theorem snapClosed_entries {flat : Snap} {d : String} {k : Nat} {cs : FsForest}
    (hcl : SnapClosed flat) (hm : (d, k, FsTree.node cs) ∈ flat) :
    ∀ e ∈ forestEntries d k cs, e ∈ flat :=
  fun e he => hcl (d, k, FsTree.node cs) hm e he

theorem tallyFiles_forestFiles : ∀ (cs : FsForest) (d : String),
    FsForest.okB notDirT cs = true →
    tallyFiles (forestFiles d cs) = (forestDirPaths d cs, cs.immSize) := by
  intro cs d hok
  match cs with
  | .nil => rfl
  | .cons n t rest =>
    rw [FsForest.okB, Bool.and_eq_true] at hok
    have ih := tallyFiles_forestFiles rest d hok.2
    match t with
    | .leaf ty s =>
      have hty : ¬ (ty = FileType.Dir) := by
        have := hok.1
        cases ty <;> simp_all [notDirT, FsTree.okB]
      simp [forestFiles, tallyFiles, forestDirPaths, FsForest.immSize, FsTree.md,
        FsTree.mdType, FsTree.mdSize, ih, hty]
    | .node cs2 =>
      simp [forestFiles, tallyFiles, forestDirPaths, FsForest.immSize, FsTree.md,
        FsTree.mdType, FsTree.mdSize, ih]

theorem forest_subSum_decomp : ∀ (cs : FsForest) (d : String) (k : Nat) (flat : Snap),
    (flat.map Prod.fst).Nodup →
    (∀ e ∈ forestEntries d k cs, e ∈ flat) →
    ((forestDirPaths d cs).map (subSum flat)).sum + cs.immSize = cs.leafSum := by
  intro cs d k flat hnd hsub
  match cs with
  | .nil => rfl
  | .cons n t rest =>
    have hsubr : ∀ e ∈ forestEntries d k rest, e ∈ flat := by
      intro e he
      exact hsub e (by rw [forestEntries]; exact List.mem_cons_of_mem _ he)
    have ih := forest_subSum_decomp rest d k flat hnd hsubr
    match t with
    | .leaf ty s =>
      simp only [forestDirPaths, immSize_cons_leaf, fleafSum_cons, leafSum_leaf]
      omega
    | .node cs2 =>
      have hmem : (d ++ "/" ++ n, k + 1, FsTree.node cs2) ∈ flat := by
        apply hsub
        rw [forestEntries]
        exact List.mem_cons_self _ _
      have hl : lookupS flat (d ++ "/" ++ n) = some (k + 1, FsTree.node cs2) :=
        lookupS_of_mem hnd hmem
      simp only [forestDirPaths, immSize_cons_node, fleafSum_cons, leafSum_node,
        List.map_cons, List.sum_cons, subSum_node hl]
      omega

theorem forestDirPaths_entry {P : FileType → Bool} :
    ∀ (cs : FsForest) (d d2 : String) (k : Nat),
    d2 ∈ forestDirPaths d cs → FsForest.okB P cs = true →
    ∃ cs2, (d2, k + 1, FsTree.node cs2) ∈ forestEntries d k cs ∧
      cs2.height + 1 ≤ cs.height ∧ FsForest.okB P cs2 = true := by
  intro cs d d2 k hmem hok
  match cs with
  | .nil =>
    rw [forestDirPaths] at hmem
    cases hmem
  | .cons n t rest =>
    rw [FsForest.okB, Bool.and_eq_true] at hok
    match t with
    | .leaf ty s =>
      rw [forestDirPaths] at hmem
      obtain ⟨cs2, h1, h2, h3⟩ := forestDirPaths_entry rest d d2 k hmem hok.2
      refine ⟨cs2, ?_, ?_, h3⟩
      · rw [forestEntries]; exact List.mem_cons_of_mem _ h1
      · rw [FsForest.height]; omega
    | .node csc =>
      rw [forestDirPaths] at hmem
      rcases List.mem_cons.mp hmem with rfl | hm2
      · refine ⟨csc, ?_, ?_, ?_⟩
        · rw [forestEntries]; exact List.mem_cons_self _ _
        · rw [FsForest.height, FsTree.height]; omega
        · exact hok.1
      · obtain ⟨cs2, h1, h2, h3⟩ := forestDirPaths_entry rest d d2 k hm2 hok.2
        refine ⟨cs2, ?_, ?_, h3⟩
        · rw [forestEntries]; exact List.mem_cons_of_mem _ h1
        · rw [FsForest.height]; omega

theorem DirsOk_step {P : FileType → Bool} {flat : Snap} {fuel : Nat} {dirs : List String}
    (hnd : (flat.map Prod.fst).Nodup) (hcl : SnapClosed flat)
    (hQ : DirsOk flat P (fuel + 1) dirs) :
    DirsOk flat P fuel (dirs.flatMap (childDirs flat)) := by
  intro d2 hd2
  rw [List.mem_flatMap] at hd2
  obtain ⟨d, hd, hd2c⟩ := hd2
  obtain ⟨k, cs, hmem, hok, hh⟩ := hQ d hd
  have hl : lookupS flat d = some (k, FsTree.node cs) := lookupS_of_mem hnd hmem
  rw [childDirs, hl] at hd2c
  obtain ⟨cs2, he, hh2, hok2⟩ := forestDirPaths_entry cs d d2 k hd2c hok
  exact ⟨k + 1, cs2, snapClosed_entries hcl hmem _ he, hok2, by omega⟩

theorem calcLevel_ok : ∀ (dirs : List String) (flat : Snap) (fuel : Nat),
    (flat.map Prod.fst).Nodup → DirsOk flat notDirT (fuel + 1) dirs →
    ∃ tr, calcLevel (treeBackend flat) dirs
      = (tr, .ok (dirs.flatMap (childDirs flat), (dirs.map (immAt flat)).sum)) := by
  intro dirs flat fuel hnd hQ
  induction dirs with
  | nil => exact ⟨[], by simp [calcLevel]⟩
  | cons d rest ih =>
    obtain ⟨k, cs, hmem, hok, hh⟩ := hQ d (by simp)
    have hl : lookupS flat d = some (k, FsTree.node cs) := lookupS_of_mem hnd hmem
    obtain ⟨tr, htr⟩ := ih (fun x hx => hQ x (List.mem_cons_of_mem _ hx))
    refine ⟨Ev.readDir .fromB d :: tr, ?_⟩
    simp only [calcLevel, Backend.readDirT, tb_read_dir_node hl, bindE_ok,
      tallyFiles_forestFiles cs d hok, htr, List.flatMap_cons, List.map_cons,
      List.sum_cons, childDirs_node hl, immAt_node hl]
    simp

theorem level_sum : ∀ (dirs : List String) (flat : Snap),
    (flat.map Prod.fst).Nodup → SnapClosed flat →
    (∀ d ∈ dirs, ∃ k cs, (d, k, FsTree.node cs) ∈ flat) →
    ((dirs.flatMap (childDirs flat)).map (subSum flat)).sum + (dirs.map (immAt flat)).sum
      = (dirs.map (subSum flat)).sum := by
  intro dirs flat hnd hcl hdirs
  induction dirs with
  | nil => simp
  | cons d rest ih =>
    obtain ⟨k, cs, hmem⟩ := hdirs d (by simp)
    have hl : lookupS flat d = some (k, FsTree.node cs) := lookupS_of_mem hnd hmem
    have hdec := forest_subSum_decomp cs d k flat hnd (snapClosed_entries hcl hmem)
    have ihr := ih (fun x hx => hdirs x (List.mem_cons_of_mem _ hx))
    rw [List.flatMap_cons, List.map_append, List.sum_append, List.map_cons, List.sum_cons,
      List.map_cons, List.sum_cons, childDirs_node hl, immAt_node hl, subSum_node hl]
    omega

theorem calcLoop_ok : ∀ (fuel : Nat) (dirs : List String) (total : Nat) (flat : Snap),
    (flat.map Prod.fst).Nodup → SnapClosed flat → DirsOk flat notDirT fuel dirs →
    (calcLoop (treeBackend flat) fuel dirs total).2
      = .ok (total + (dirs.map (subSum flat)).sum) := by
  intro fuel
  induction fuel with
  | zero =>
    intro dirs total flat hnd hcl hQ
    match dirs with
    | [] => simp [calcLoop]
    | d :: rest =>
      obtain ⟨k, cs, _, _, hh⟩ := hQ d (by simp)
      omega
  | succ fuel ih =>
    intro dirs total flat hnd hcl hQ
    match dirs with
    | [] => simp [calcLoop]
    | d :: rest =>
      obtain ⟨tr, htr⟩ := calcLevel_ok (d :: rest) flat fuel hnd hQ
      have hrec := ih ((d :: rest).flatMap (childDirs flat))
        (total + ((d :: rest).map (immAt flat)).sum) flat hnd hcl
        (DirsOk_step hnd hcl hQ)
      have hsum := level_sum (d :: rest) flat hnd hcl
        (fun x hx => (hQ x hx).elim fun k h => ⟨k, h.choose, h.choose_spec.1⟩)
      rw [calcLoop, htr, bindE_ok]
      simp only []
      rw [hrec]
      rw [Except.ok.injEq]
      omega

theorem calcTotal_snap (flat : Snap) (pairs : List (String × Nat × FsTree)) (fuel : Nat)
    (hWF : SnapWF flat)
    (hok : ∀ e ∈ flat, FsTree.okB notDirT e.2.2 = true)
    (hmem : ∀ e ∈ pairs, e ∈ flat)
    (hfuel : ∀ e ∈ pairs, FsTree.height e.2.2 ≤ fuel) :
    (calculate_total_size (treeBackend flat) fuel (pairs.map Prod.fst)).2
      = .ok ((pairs.map (fun e => FsTree.leafSum e.2.2)).sum) := by
  obtain ⟨hnd, hcl⟩ := hWF
  have hretr : retrieveS flat (pairs.map Prod.fst) = .ok (pairs.map rootFile) := by
    clear hfuel
    induction pairs with
    | nil => rfl
    | cons e rest ih =>
      obtain ⟨p, k, t⟩ := e
      have hl : lookupS flat p = some (k, t) := lookupS_of_mem hnd (hmem _ (by simp))
      rw [List.map_cons, retrieveS, hl, ih (fun x hx => hmem x (List.mem_cons_of_mem _ hx)),
        List.map_cons]
      rfl
  have htally : tallyFiles (pairs.map rootFile) = (rootDirs pairs, rootLeafSizes pairs) := by
    clear hfuel hretr
    induction pairs with
    | nil => rfl
    | cons e rest ih =>
      obtain ⟨p, k, t⟩ := e
      have ihr := ih (fun x hx => hmem x (List.mem_cons_of_mem _ hx))
      match t with
      | .leaf ty s =>
        have hty : ¬ (ty = FileType.Dir) := by
          have := hok _ (hmem _ (List.mem_cons_self _ _))
          cases ty <;> simp_all [notDirT, FsTree.okB]
        simp [rootFile, FsTree.md, FsTree.mdType, FsTree.mdSize, tallyFiles, rootDirs,
          rootLeafSizes, ihr, hty]
      | .node cs =>
        simp [rootFile, FsTree.md, FsTree.mdType, FsTree.mdSize, tallyFiles, rootDirs,
          rootLeafSizes, ihr]
  have hQ : DirsOk flat notDirT fuel (rootDirs pairs) := by
    clear hretr htally
    induction pairs with
    | nil => intro d hd; rw [rootDirs] at hd; cases hd
    | cons e rest ih =>
      have ihr := ih (fun x hx => hmem x (List.mem_cons_of_mem _ hx))
        (fun x hx => hfuel x (List.mem_cons_of_mem _ hx))
      obtain ⟨p, k, t⟩ := e
      match t with
      | .leaf ty s =>
        rw [rootDirs]
        exact ihr
      | .node cs =>
        rw [rootDirs]
        intro d hd
        rcases List.mem_cons.mp hd with rfl | hd2
        · refine ⟨k, cs, hmem _ (List.mem_cons_self _ _), ?_, ?_⟩
          · have := hok _ (hmem _ (List.mem_cons_self _ _))
            rw [FsTree.okB] at this
            exact this
          · have := hfuel _ (List.mem_cons_self _ _)
            rw [FsTree.height] at this
            omega
        · exact ihr d hd2
  have hroots : ((rootDirs pairs).map (subSum flat)).sum + rootLeafSizes pairs
      = (pairs.map (fun e => FsTree.leafSum e.2.2)).sum := by
    clear hfuel hretr htally hQ
    induction pairs with
    | nil => rfl
    | cons e rest ih =>
      have ihr := ih (fun x hx => hmem x (List.mem_cons_of_mem _ hx))
      obtain ⟨p, k, t⟩ := e
      match t with
      | .leaf ty s =>
        simp only [rootDirs, rootLeafSizes, List.map_cons, List.sum_cons, leafSum_leaf]
        omega
      | .node cs =>
        have hl : lookupS flat p = some (k, FsTree.node cs) :=
          lookupS_of_mem hnd (hmem _ (by simp))
        simp only [rootDirs, rootLeafSizes, List.map_cons, List.sum_cons, leafSum_node,
          subSum_node hl]
        omega
  have hloop := calcLoop_ok fuel (rootDirs pairs) (rootLeafSizes pairs) flat hnd hcl hQ
  rw [calculate_total_size, Backend.retrieveFilesT]
  have hback : (treeBackend flat).retrieve_files (pairs.map Prod.fst)
      = .ok (pairs.map rootFile) := hretr
  rw [hback, bindE_ok]
  simp only [htally]
  rw [hloop, Except.ok.injEq]
  omega

theorem calcLevel_failfast : ∀ (pre : List String) (b : Backend) (d : String)
    (post : List String) (e : Err),
    (∀ x ∈ pre, ∃ fs, b.read_dir x = .ok fs) → b.read_dir d = .error e →
    (calcLevel b (pre ++ d :: post)).2 = .error e := by
  intro pre
  induction pre with
  | nil =>
    intro b d post e _ hd
    simp [calcLevel, Backend.readDirT, hd, bindE]
  | cons x rest ih =>
    intro b d post e hpre hd
    obtain ⟨fs, hfs⟩ := hpre x (List.mem_cons_self _ _)
    have ihr := ih b d post e (fun y hy => hpre y (List.mem_cons_of_mem _ hy)) hd
    rcases hE : calcLevel b (rest ++ d :: post) with ⟨tr2, res2⟩
    rw [hE] at ihr
    simp only [] at ihr
    rw [List.cons_append]
    simp [calcLevel, Backend.readDirT, hfs, bindE, hE, ihr]

theorem calcLoop_failfast (b : Backend) (fuel : Nat) (pre post : List String) (d : String)
    (total : Nat) (e : Err)
    (hpre : ∀ x ∈ pre, ∃ fs, b.read_dir x = .ok fs) (hd : b.read_dir d = .error e) :
    (calcLoop b (fuel + 1) (pre ++ d :: post) total).2 = .error e := by
  have hlv := calcLevel_failfast pre b d post e hpre hd
  obtain ⟨y, ys, heq⟩ : ∃ y ys, pre ++ d :: post = y :: ys := by
    cases pre with
    | nil => exact ⟨d, post, rfl⟩
    | cons a as => exact ⟨a, as ++ d :: post, rfl⟩
  rw [heq] at hlv ⊢
  rcases hE : calcLevel b (y :: ys) with ⟨tr2, res2⟩
  rw [hE] at hlv
  simp only [] at hlv
  rw [calcLoop, hE, hlv]
  rfl

theorem calcTotal_failfast (b : Backend) (ps : List String) (fuel : Nat)
    (files : List File) (pre post : List String) (d : String) (e : Err)
    (hr : b.retrieve_files ps = .ok files)
    (hsplit : (tallyFiles files).1 = pre ++ d :: post)
    (hpre : ∀ x ∈ pre, ∃ fs, b.read_dir x = .ok fs)
    (hd : b.read_dir d = .error e) :
    (calculate_total_size b (fuel + 1) ps).2 = .error e := by
  rcases hT : tallyFiles files with ⟨dirs, total⟩
  rw [hT] at hsplit
  simp only [] at hsplit
  subst hsplit
  have hloop := calcLoop_failfast b fuel pre post d total e hpre hd
  rw [calculate_total_size, Backend.retrieveFilesT, hr, bindE_ok]
  simp only [hT]
  exact hloop

/-- C2: over any snapshot of directory trees, `calculate_total_size`
returns exactly the sum of the `size` fields (`unwrap_or(0)`) of all
non-directory entries reachable from the given roots — directories
contribute nothing themselves; the result depends only on that leaf-size
total, so it is invariant under regrouping the same leaves into a
different directory shape; and it fails fast on the first backend error
with no partial sum: a `retrieve_files` error is returned as-is, and a
`read_dir` error anywhere mid-traversal (after any successfully listed
queue prefix, whatever total has been accumulated) makes the loop and
the whole function return that error instead of any sum. -/
theorem C2_calculate_total_size
    (flat : Snap) (pairs : List (String × Nat × FsTree)) (fuel : Nat)
    (hWF : SnapWF flat)
    (hok : ∀ e ∈ flat, FsTree.okB notDirT e.2.2 = true)
    (hmem : ∀ e ∈ pairs, e ∈ flat)
    (hfuel : ∀ e ∈ pairs, FsTree.height e.2.2 ≤ fuel) :
    (calculate_total_size (treeBackend flat) fuel (pairs.map Prod.fst)).2
      = .ok ((pairs.map (fun e => FsTree.leafSum e.2.2)).sum) ∧
    (∀ (flat2 : Snap) (pairs2 : List (String × Nat × FsTree)) (fuel2 : Nat),
      SnapWF flat2 → (∀ e ∈ flat2, FsTree.okB notDirT e.2.2 = true) →
      (∀ e ∈ pairs2, e ∈ flat2) → (∀ e ∈ pairs2, FsTree.height e.2.2 ≤ fuel2) →
      (pairs2.map (fun e => FsTree.leafSum e.2.2)).sum
        = (pairs.map (fun e => FsTree.leafSum e.2.2)).sum →
      (calculate_total_size (treeBackend flat2) fuel2 (pairs2.map Prod.fst)).2
        = (calculate_total_size (treeBackend flat) fuel (pairs.map Prod.fst)).2) ∧
    (∀ (b : Backend) (ps : List String) (fl : Nat) (e : Err),
      b.retrieve_files ps = .error e →
      calculate_total_size b fl ps = ([.retrieveFiles .fromB ps], .error e)) ∧
    (∀ (b : Backend) (fl total : Nat) (pre post : List String) (d : String) (e : Err),
      (∀ x ∈ pre, ∃ fs, b.read_dir x = .ok fs) → b.read_dir d = .error e →
      (calcLoop b (fl + 1) (pre ++ d :: post) total).2 = .error e) ∧
    (∀ (b : Backend) (ps : List String) (fl : Nat) (files : List File)
      (pre post : List String) (d : String) (e : Err),
      b.retrieve_files ps = .ok files →
      (tallyFiles files).1 = pre ++ d :: post →
      (∀ x ∈ pre, ∃ fs, b.read_dir x = .ok fs) → b.read_dir d = .error e →
      (calculate_total_size b (fl + 1) ps).2 = .error e) := by
  refine ⟨calcTotal_snap flat pairs fuel ⟨hWF.1, hWF.2⟩ hok hmem hfuel, ?_, ?_, ?_, ?_⟩
  · intro flat2 pairs2 fuel2 hWF2 hok2 hmem2 hfuel2 hsum
    rw [calcTotal_snap flat2 pairs2 fuel2 hWF2 hok2 hmem2 hfuel2,
      calcTotal_snap flat pairs fuel ⟨hWF.1, hWF.2⟩ hok hmem hfuel, hsum]
  · intro b ps fl e he
    simp [calculate_total_size, Backend.retrieveFilesT, he, bindE]
  · intro b fl total pre post d e hpre hd
    exact calcLoop_failfast b fl pre post d total e hpre hd
  · intro b ps fl files pre post d e hr hsplit hpre hd
    exact calcTotal_failfast b ps fl files pre post d e hr hsplit hpre hd

/-! ## Breadth-first discovery order lemmas -/

@[simp] theorem mdType_leaf (ty : FileType) (s : Option Nat) :
    (FsTree.leaf ty s).mdType = ty := rfl

@[simp] theorem mdType_node (cs : FsForest) : (FsTree.node cs).mdType = .Dir := rfl

theorem tb_create_dir (flat : Snap) (p : String) :
    (treeBackend flat).create_dir p = .ok () := rfl

theorem tb_remove_dir (flat : Snap) (p : String) :
    (treeBackend flat).remove_dir p = .ok () := rfl

theorem tb_move_file (flat : Snap) (a b : String) (ow : Bool) :
    (treeBackend flat).move_file a b ow = .ok () := rfl

theorem tb_remove_file (flat : Snap) (p : String) :
    (treeBackend flat).remove_file p = .ok () := rfl

theorem tb_retrieve_content (flat : Snap) (p : String) :
    (treeBackend flat).retrieve_file_content p = .ok [] := rfl

theorem tb_create_file (flat : Snap) (p : String) (ow : Bool) (c : Option (List Nat)) :
    (treeBackend flat).create_file p ow c = .ok () := rfl

theorem tb_exists_true {flat : Snap} {p : String} {k : Nat} {t : FsTree}
    (hl : lookupS flat p = some (k, t)) :
    (treeBackend flat).existsQ p = .ok true := by
  simp [treeBackend, hl]

theorem tb_get_file_type {flat : Snap} {p : String} {k : Nat} {t : FsTree}
    (hl : lookupS flat p = some (k, t)) :
    (treeBackend flat).get_file_type p = .ok t.mdType := by
  simp [treeBackend, hl]

theorem fokB_true : ∀ cs : FsForest, cs.okB (fun _ => true) = true := by
  intro cs
  match cs with
  | .nil => rfl
  | .cons n t rest =>
    have ihr := fokB_true rest
    match t with
    | .leaf ty s => simp [ihr]
    | .node csc =>
      have ihc := fokB_true csc
      simp [ihc, ihr]

theorem depthAt_of_mem {flat : Snap} {p : String} {k : Nat} {t : FsTree}
    (hnd : (flat.map Prod.fst).Nodup) (hm : (p, k, t) ∈ flat) :
    depthAt flat p = k := by
  simp [depthAt, lookupS_of_mem hnd hm]

theorem DirsOkAt_step {P : FileType → Bool} {flat : Snap} {fuel k : Nat} {dirs : List String}
    (hnd : (flat.map Prod.fst).Nodup) (hcl : SnapClosed flat)
    (hQ : DirsOkAt flat P (fuel + 1) k dirs) :
    DirsOkAt flat P fuel (k + 1) (dirs.flatMap (childDirs flat)) := by
  intro d2 hd2
  rw [List.mem_flatMap] at hd2
  obtain ⟨d, hd, hd2c⟩ := hd2
  obtain ⟨cs, hmem, hok, hh⟩ := hQ d hd
  have hl := lookupS_of_mem hnd hmem
  rw [childDirs_node hl] at hd2c
  obtain ⟨cs2, he, hh2, hok2⟩ := forestDirPaths_entry cs d d2 k hd2c hok
  exact ⟨cs2, snapClosed_entries hcl hmem _ he, hok2, by omega⟩

theorem mem_bfs_of_mem_queue {flat : Snap} {fuel : Nat} {dirs : List String} {d : String}
    (hd : d ∈ dirs) : d ∈ bfsList flat (fuel + 1) dirs := by
  match dirs with
  | [] => cases hd
  | x :: rest =>
    rw [bfsList]
    exact List.mem_append_left _ hd

theorem bfs_entry_depth {P : FileType → Bool} :
    ∀ (fuel : Nat) (dirs : List String) (k : Nat) (flat : Snap),
    (flat.map Prod.fst).Nodup → SnapClosed flat → DirsOkAt flat P fuel k dirs →
    ∀ d ∈ bfsList flat fuel dirs,
      ∃ k2 cs2, (d, k2, FsTree.node cs2) ∈ flat ∧ k ≤ k2 := by
  intro fuel
  induction fuel with
  | zero =>
    intro dirs k flat _ _ _ d hd
    match dirs with
    | [] => rw [bfsList] at hd; cases hd
    | x :: rest => rw [bfsList] at hd; cases hd
  | succ fuel ih =>
    intro dirs k flat hnd hcl hQ d hd
    match dirs with
    | [] => rw [bfsList] at hd; cases hd
    | x :: rest =>
      rw [bfsList] at hd
      rcases List.mem_append.mp hd with hd1 | hd2
      · obtain ⟨cs, hmem, _, _⟩ := hQ d hd1
        exact ⟨k, cs, hmem, le_refl _⟩
      · obtain ⟨k2, cs2, hm, hk⟩ :=
          ih _ (k + 1) flat hnd hcl (DirsOkAt_step hnd hcl hQ) d hd2
        exact ⟨k2, cs2, hm, by omega⟩

theorem bfs_pairwise_depth {P : FileType → Bool} :
    ∀ (fuel : Nat) (dirs : List String) (k : Nat) (flat : Snap),
    (flat.map Prod.fst).Nodup → SnapClosed flat → DirsOkAt flat P fuel k dirs →
    (bfsList flat fuel dirs).Pairwise (fun a b => depthAt flat a ≤ depthAt flat b) := by
  intro fuel
  induction fuel with
  | zero =>
    intro dirs k flat _ _ _
    match dirs with
    | [] => rw [bfsList]; exact List.Pairwise.nil
    | x :: rest => rw [bfsList]; exact List.Pairwise.nil
  | succ fuel ih =>
    intro dirs k flat hnd hcl hQ
    match dirs with
    | [] => rw [bfsList]; exact List.Pairwise.nil
    | x :: rest =>
      rw [bfsList, List.pairwise_append]
      have hdep : ∀ d ∈ x :: rest, depthAt flat d = k := by
        intro d hd
        obtain ⟨cs, hmem, _, _⟩ := hQ d hd
        exact depthAt_of_mem hnd hmem
      refine ⟨?_, ih _ (k + 1) flat hnd hcl (DirsOkAt_step hnd hcl hQ), ?_⟩
      · apply List.pairwise_of_forall_mem_list
        intro a ha b hb
        rw [hdep a ha, hdep b hb]
      · intro a ha b hb
        obtain ⟨k2, cs2, hm, hk⟩ := bfs_entry_depth fuel _ (k + 1) flat hnd hcl
          (DirsOkAt_step hnd hcl hQ) b hb
        rw [hdep a ha, depthAt_of_mem hnd hm]
        omega

theorem Desc_entry_depth {flat : Snap} (hnd : (flat.map Prod.fst).Nodup)
    (hcl : SnapClosed flat) :
    ∀ {d d2 : String}, Desc flat d d2 → ∀ {k : Nat} {cs : FsForest},
      (d, k, FsTree.node cs) ∈ flat →
      ∃ k2 cs2, (d2, k2, FsTree.node cs2) ∈ flat ∧ k < k2 := by
  intro d d2 hdesc
  induction hdesc with
  | child hchild =>
    intro k cs hmem
    have hl := lookupS_of_mem hnd hmem
    rw [childDirs_node hl] at hchild
    obtain ⟨cs2, he, _, _⟩ :=
      forestDirPaths_entry (P := fun _ => true) cs _ _ k hchild (fokB_true cs)
    exact ⟨k + 1, cs2, snapClosed_entries hcl hmem _ he, by omega⟩
  | step hchild hdesc2 ih =>
    intro k cs hmem
    have hl := lookupS_of_mem hnd hmem
    rw [childDirs_node hl] at hchild
    obtain ⟨csc, he, _, _⟩ :=
      forestDirPaths_entry (P := fun _ => true) cs _ _ k hchild (fokB_true cs)
    obtain ⟨k2, cs2, hm2, hk2⟩ := ih (snapClosed_entries hcl hmem _ he)
    exact ⟨k2, cs2, hm2, by omega⟩

theorem bfs_complete {P : FileType → Bool} :
    ∀ (fuel : Nat) (dirs : List String) (k : Nat) (flat : Snap),
    (flat.map Prod.fst).Nodup → SnapClosed flat → DirsOkAt flat P fuel k dirs →
    ∀ d1 ∈ bfsList flat fuel dirs, ∀ d2, Desc flat d1 d2 →
      d2 ∈ bfsList flat fuel dirs := by
  intro fuel
  induction fuel with
  | zero =>
    intro dirs k flat _ _ _ d1 hd1
    match dirs with
    | [] => rw [bfsList] at hd1; cases hd1
    | x :: rest => rw [bfsList] at hd1; cases hd1
  | succ fuel ih =>
    intro dirs k flat hnd hcl hQ d1 hd1 d2 hdesc
    match dirs with
    | [] => rw [bfsList] at hd1; cases hd1
    | x :: rest =>
      rw [bfsList] at hd1
      rw [bfsList]
      have hstep := DirsOkAt_step hnd hcl hQ
      rcases List.mem_append.mp hd1 with hq | hdeep
      · obtain ⟨cs, hmem, hok, hh⟩ := hQ d1 hq
        have hl := lookupS_of_mem hnd hmem
        cases hdesc with
        | child hchild =>
          have hnext : d2 ∈ (x :: rest).flatMap (childDirs flat) :=
            List.mem_flatMap.mpr ⟨d1, hq, hchild⟩
          have hcd := hchild
          rw [childDirs_node hl] at hcd
          obtain ⟨cs2, _, hh2, _⟩ := forestDirPaths_entry cs d1 d2 k hcd hok
          cases fuel with
          | zero => omega
          | succ f =>
            exact List.mem_append_right _ (mem_bfs_of_mem_queue hnext)
        | step hchild hdesc2 =>
          rename_i c
          have hnextc : c ∈ (x :: rest).flatMap (childDirs flat) :=
            List.mem_flatMap.mpr ⟨d1, hq, hchild⟩
          have hcd := hchild
          rw [childDirs_node hl] at hcd
          obtain ⟨csc, _, hh2, _⟩ := forestDirPaths_entry cs d1 c k hcd hok
          cases fuel with
          | zero => omega
          | succ f =>
            apply List.mem_append_right
            exact ih _ (k + 1) flat hnd hcl hstep c (mem_bfs_of_mem_queue hnextc) d2 hdesc2
      · exact List.mem_append_right _
          (ih _ (k + 1) flat hnd hcl hstep d1 hdeep d2 hdesc)

theorem pairwise_split_of_lt {f : String → Nat} :
    ∀ {l : List String}, l.Pairwise (fun a b => f a ≤ f b) →
    ∀ {d1 d2 : String}, d1 ∈ l → d2 ∈ l → f d1 < f d2 →
    ∃ l1 l2, l = l1 ++ d1 :: l2 ∧ d2 ∈ l2 := by
  intro l
  induction l with
  | nil => intro _ d1 d2 h1; cases h1
  | cons x rest ih =>
    intro hp d1 d2 h1 h2 hf
    rw [List.pairwise_cons] at hp
    rcases List.mem_cons.mp h1 with rfl | h1r
    · rcases List.mem_cons.mp h2 with rfl | h2r
      · omega
      · exact ⟨[], rest, rfl, h2r⟩
    · rcases List.mem_cons.mp h2 with rfl | h2r
      · have := hp.1 d1 h1r
        omega
      · obtain ⟨l1, l2, heq, hm⟩ := ih hp.2 h1r h2r hf
        exact ⟨x :: l1, l2, by rw [heq]; rfl, hm⟩

theorem reverse_split {l l1 l2 : List String} {d1 d2 : String}
    (heq : l = l1 ++ d1 :: l2) (hm : d2 ∈ l2) :
    ∃ a b, l.reverse = a ++ d2 :: b ∧ d1 ∈ b := by
  obtain ⟨a2, b2, heq2⟩ := List.append_of_mem hm
  subst heq2
  subst heq
  refine ⟨b2.reverse, a2.reverse ++ d1 :: l1.reverse, ?_, by simp⟩
  simp

/-! ## The move loops over the snapshot backend -/

theorem moveChildren_ok : ∀ (cs : FsForest) (flat : Snap) (tdp parents d : String),
    FsForest.okB isFileT cs = true →
    ∃ tr pairs, moveChildren (treeBackend flat) tdp parents (forestFiles d cs)
        = (tr, .ok pairs)
      ∧ pairs.map Prod.fst = forestDirPaths d cs
      ∧ ∀ e ∈ tr, e.isRemDirEv = false := by
  intro cs flat tdp parents d hok
  match cs with
  | .nil => exact ⟨[], [], rfl, rfl, by intro e he; cases he⟩
  | .cons n t rest =>
    rw [fokB_cons, Bool.and_eq_true] at hok
    obtain ⟨tr, pairs, heq, hmap, hnr⟩ := moveChildren_ok rest flat tdp parents d hok.2
    match t with
    | .leaf ty s =>
      have hty : ty = .File := by
        have := hok.1
        cases ty <;> simp_all [isFileT]
      subst hty
      refine ⟨Ev.moveFile .fromB (d ++ "/" ++ n) (tdp ++ "/" ++ n) false :: tr, pairs,
        ?_, hmap, ?_⟩
      · rw [forestFiles]
        simp [moveChildren, FsTree.md, FsTree.mdType, FsTree.mdSize, Backend.moveFileT,
          tb_move_file, bindE, heq]
      · intro e he
        rcases List.mem_cons.mp he with rfl | h2
        · rfl
        · exact hnr e h2
    | .node csc =>
      refine ⟨tr, (d ++ "/" ++ n, parents) :: pairs, ?_, ?_, hnr⟩
      · rw [forestFiles]
        simp [moveChildren, FsTree.md, FsTree.mdType, FsTree.mdSize, bindE, heq]
      · rw [List.map_cons, hmap, forestDirPaths]

theorem moveLevel_ok : ∀ (Qe : List (String × String)) (flat : Snap) (dst : String)
    (fuel k : Nat),
    (flat.map Prod.fst).Nodup →
    DirsOkAt flat isFileT (fuel + 1) k (Qe.map Prod.fst) →
    ∃ tr nds, moveLevel (treeBackend flat) dst Qe = (tr, .ok (nds, Qe.map Prod.fst))
      ∧ nds.map Prod.fst = (Qe.map Prod.fst).flatMap (childDirs flat)
      ∧ ∀ e ∈ tr, e.isRemDirEv = false := by
  intro Qe flat dst fuel k hnd hQ
  induction Qe with
  | nil => exact ⟨[], [], rfl, rfl, by intro e he; cases he⟩
  | cons q rest ih =>
    obtain ⟨cs, hmem, hok, hh⟩ := hQ q.1 (by simp)
    have hl := lookupS_of_mem hnd hmem
    obtain ⟨tr2, nds2, heq2, hmap2, hnr2⟩ :=
      ih (fun x hx => hQ x (by rw [List.map_cons]; exact List.mem_cons_of_mem _ hx))
    obtain ⟨tr1, pairs1, heq1, hmap1, hnr1⟩ := moveChildren_ok cs flat
      (dst ++ q.2 ++ extract_lowest_path_item q.1)
      (q.2 ++ extract_lowest_path_item q.1 ++ "/") q.1 hok
    refine ⟨Ev.createDir .fromB (dst ++ q.2 ++ extract_lowest_path_item q.1)
        :: Ev.readDir .fromB q.1 :: (tr1 ++ tr2), pairs1 ++ nds2, ?_, ?_, ?_⟩
    · simp [moveLevel, moveProcessDir, createDirTolerated, tb_create_dir,
        Backend.readDirT, tb_read_dir_node hl, bindE, heq1, heq2]
    · rw [List.map_append, hmap1, hmap2, List.map_cons, List.flatMap_cons,
        childDirs_node hl]
    · intro e he
      rcases List.mem_cons.mp he with rfl | he2
      · rfl
      rcases List.mem_cons.mp he2 with rfl | he3
      · rfl
      rcases List.mem_append.mp he3 with h | h
      · exact hnr1 e h
      · exact hnr2 e h

theorem moveLoop_ok : ∀ (fuel : Nat) (Qe : List (String × String)) (acc : List String)
    (flat : Snap) (dst : String) (k : Nat),
    (flat.map Prod.fst).Nodup → SnapClosed flat →
    DirsOkAt flat isFileT fuel k (Qe.map Prod.fst) →
    ∃ tr, moveLoop (treeBackend flat) dst fuel Qe acc
        = (tr, .ok (acc ++ bfsList flat fuel (Qe.map Prod.fst)))
      ∧ ∀ e ∈ tr, e.isRemDirEv = false := by
  intro fuel
  induction fuel with
  | zero =>
    intro Qe acc flat dst k hnd hcl hQ
    match Qe with
    | [] => exact ⟨[], by simp [moveLoop, bfsList], by intro e he; cases he⟩
    | q :: rest =>
      obtain ⟨cs, _, _, hh⟩ := hQ q.1 (by simp)
      omega
  | succ fuel ih =>
    intro Qe acc flat dst k hnd hcl hQ
    match Qe with
    | [] => exact ⟨[], by simp [moveLoop, bfsList], by intro e he; cases he⟩
    | q :: rest =>
      obtain ⟨tr1, nds, heq1, hmap1, hnr1⟩ := moveLevel_ok (q :: rest) flat dst fuel k hnd hQ
      obtain ⟨tr2, heq2, hnr2⟩ := ih nds (acc ++ (q :: rest).map Prod.fst) flat dst (k + 1)
        hnd hcl (by rw [hmap1]; exact DirsOkAt_step hnd hcl hQ)
      refine ⟨tr1 ++ tr2, ?_, ?_⟩
      · rw [moveLoop, heq1, bindE_ok]
        simp only [heq2, hmap1]
        rw [show bfsList flat (fuel + 1) ((q :: rest).map Prod.fst)
            = (q :: rest).map Prod.fst
              ++ bfsList flat fuel (((q :: rest).map Prod.fst).flatMap (childDirs flat)) by
          rw [List.map_cons, bfsList]]
        simp [List.append_assoc]
      · intro e he
        rcases List.mem_append.mp he with h | h
        · exact hnr1 e h
        · exact hnr2 e h

theorem removePhase_tb : ∀ (l : List String) (flat : Snap) (s : Side),
    removePhase (treeBackend flat) s l = (l.map (Ev.removeDir s), .ok ()) := by
  intro l flat s
  induction l with
  | nil => rfl
  | cons d rest ih => simp [removePhase, Backend.removeDirT, tb_remove_dir, bindE, ih]

theorem move_files_tb (flat : Snap) (r dst : String) (k kd : Nat) (cs csd : FsForest)
    (fuel : Nat)
    (hnd : (flat.map Prod.fst).Nodup) (hcl : SnapClosed flat)
    (hr : (r, k, FsTree.node cs) ∈ flat)
    (hok : FsForest.okB isFileT cs = true)
    (hh : cs.height + 1 ≤ fuel)
    (hdst : (dst, kd, FsTree.node csd) ∈ flat) :
    ∃ pre, move_files (treeBackend flat) fuel [r] dst
        = (pre ++ (bfsList flat fuel [r]).reverse.map (Ev.removeDir .fromB), .ok ())
      ∧ ∀ e ∈ pre, e.isRemDirEv = false := by
  have hlr := lookupS_of_mem hnd hr
  have hld := lookupS_of_mem hnd hdst
  obtain ⟨tr, heqLoop, hnr⟩ := moveLoop_ok fuel [(r, "/")] [] flat dst k hnd hcl
    (by intro d hd; simp at hd; subst hd; exact ⟨cs, hr, hok, hh⟩)
  refine ⟨Ev.qexists .fromB dst :: Ev.getFileType .fromB r :: tr, ?_, ?_⟩
  · simp [move_files, Backend.existsT, tb_exists_true hld, moveFilesTop,
      Backend.getFileTypeT, tb_get_file_type hlr, bindE, heqLoop, removePhase_tb]
  · intro e he
    rcases List.mem_cons.mp he with rfl | he2
    · rfl
    rcases List.mem_cons.mp he2 with rfl | he3
    · rfl
    exact hnr e he3

theorem moveBetweenChildren_ok : ∀ (cs : FsForest) (flat : Snap) (tdp parents d : String),
    FsForest.okB isFileT cs = true →
    ∃ tr pairs, moveBetweenChildren (treeBackend flat) (treeBackend flat) tdp parents
        (forestFiles d cs) = (tr, .ok pairs)
      ∧ pairs.map Prod.fst = forestDirPaths d cs
      ∧ ∀ e ∈ tr, e.isRemDirEv = false := by
  intro cs flat tdp parents d hok
  match cs with
  | .nil => exact ⟨[], [], rfl, rfl, by intro e he; cases he⟩
  | .cons n t rest =>
    rw [fokB_cons, Bool.and_eq_true] at hok
    obtain ⟨tr, pairs, heq, hmap, hnr⟩ := moveBetweenChildren_ok rest flat tdp parents d hok.2
    match t with
    | .leaf ty s =>
      have hty : ty = .File := by
        have := hok.1
        cases ty <;> simp_all [isFileT]
      subst hty
      refine ⟨Ev.retrieveFileContent .fromB (d ++ "/" ++ n)
          :: Ev.createFile .toB (tdp ++ "/" ++ n) false (some [])
          :: Ev.removeFile .fromB (d ++ "/" ++ n) :: tr, pairs, ?_, hmap, ?_⟩
      · rw [forestFiles]
        simp [moveBetweenChildren, FsTree.md, FsTree.mdType, FsTree.mdSize,
          move_file_between, copy_file_between, Backend.retrieveFileContentT,
          Backend.createFileT, Backend.removeFileT, tb_retrieve_content, tb_create_file,
          tb_remove_file, bindE, heq]
      · intro e he
        rcases List.mem_cons.mp he with rfl | he2
        · rfl
        rcases List.mem_cons.mp he2 with rfl | he3
        · rfl
        rcases List.mem_cons.mp he3 with rfl | he4
        · rfl
        exact hnr e he4
    | .node csc =>
      refine ⟨tr, (d ++ "/" ++ n, parents) :: pairs, ?_, ?_, hnr⟩
      · rw [forestFiles]
        simp [moveBetweenChildren, FsTree.md, FsTree.mdType, FsTree.mdSize, bindE, heq]
      · rw [List.map_cons, hmap, forestDirPaths]

theorem moveBetweenLevel_ok : ∀ (Qe : List (String × String)) (flat : Snap) (dst : String)
    (fuel k : Nat),
    (flat.map Prod.fst).Nodup →
    DirsOkAt flat isFileT (fuel + 1) k (Qe.map Prod.fst) →
    ∃ tr nds, moveBetweenLevel (treeBackend flat) (treeBackend flat) dst Qe
        = (tr, .ok (nds, Qe.map Prod.fst))
      ∧ nds.map Prod.fst = (Qe.map Prod.fst).flatMap (childDirs flat)
      ∧ ∀ e ∈ tr, e.isRemDirEv = false := by
  intro Qe flat dst fuel k hnd hQ
  induction Qe with
  | nil => exact ⟨[], [], rfl, rfl, by intro e he; cases he⟩
  | cons q rest ih =>
    obtain ⟨cs, hmem, hok, hh⟩ := hQ q.1 (by simp)
    have hl := lookupS_of_mem hnd hmem
    obtain ⟨tr2, nds2, heq2, hmap2, hnr2⟩ :=
      ih (fun x hx => hQ x (by rw [List.map_cons]; exact List.mem_cons_of_mem _ hx))
    obtain ⟨tr1, pairs1, heq1, hmap1, hnr1⟩ := moveBetweenChildren_ok cs flat
      (dst ++ q.2 ++ extract_lowest_path_item q.1)
      (q.2 ++ extract_lowest_path_item q.1 ++ "/") q.1 hok
    refine ⟨Ev.createDir .toB (dst ++ q.2 ++ extract_lowest_path_item q.1)
        :: Ev.readDir .fromB q.1 :: (tr1 ++ tr2), pairs1 ++ nds2, ?_, ?_, ?_⟩
    · simp [moveBetweenLevel, moveBetweenProcessDir, createDirTolerated, tb_create_dir,
        Backend.readDirT, tb_read_dir_node hl, bindE, heq1, heq2]
    · rw [List.map_append, hmap1, hmap2, List.map_cons, List.flatMap_cons,
        childDirs_node hl]
    · intro e he
      rcases List.mem_cons.mp he with rfl | he2
      · rfl
      rcases List.mem_cons.mp he2 with rfl | he3
      · rfl
      rcases List.mem_append.mp he3 with h | h
      · exact hnr1 e h
      · exact hnr2 e h

theorem moveBetweenLoop_ok : ∀ (fuel : Nat) (Qe : List (String × String))
    (acc : List String) (flat : Snap) (dst : String) (k : Nat),
    (flat.map Prod.fst).Nodup → SnapClosed flat →
    DirsOkAt flat isFileT fuel k (Qe.map Prod.fst) →
    ∃ tr, moveBetweenLoop (treeBackend flat) (treeBackend flat) dst fuel Qe acc
        = (tr, .ok (acc ++ bfsList flat fuel (Qe.map Prod.fst)))
      ∧ ∀ e ∈ tr, e.isRemDirEv = false := by
  intro fuel
  induction fuel with
  | zero =>
    intro Qe acc flat dst k hnd hcl hQ
    match Qe with
    | [] => exact ⟨[], by simp [moveBetweenLoop, bfsList], by intro e he; cases he⟩
    | q :: rest =>
      obtain ⟨cs, _, _, hh⟩ := hQ q.1 (by simp)
      omega
  | succ fuel ih =>
    intro Qe acc flat dst k hnd hcl hQ
    match Qe with
    | [] => exact ⟨[], by simp [moveBetweenLoop, bfsList], by intro e he; cases he⟩
    | q :: rest =>
      obtain ⟨tr1, nds, heq1, hmap1, hnr1⟩ :=
        moveBetweenLevel_ok (q :: rest) flat dst fuel k hnd hQ
      obtain ⟨tr2, heq2, hnr2⟩ := ih nds (acc ++ (q :: rest).map Prod.fst) flat dst (k + 1)
        hnd hcl (by rw [hmap1]; exact DirsOkAt_step hnd hcl hQ)
      refine ⟨tr1 ++ tr2, ?_, ?_⟩
      · rw [moveBetweenLoop, heq1, bindE_ok]
        simp only [heq2, hmap1]
        rw [show bfsList flat (fuel + 1) ((q :: rest).map Prod.fst)
            = (q :: rest).map Prod.fst
              ++ bfsList flat fuel (((q :: rest).map Prod.fst).flatMap (childDirs flat)) by
          rw [List.map_cons, bfsList]]
        simp [List.append_assoc]
      · intro e he
        rcases List.mem_append.mp he with h | h
        · exact hnr1 e h
        · exact hnr2 e h

theorem move_files_between_tb (flat : Snap) (r dst : String) (k kd : Nat)
    (cs csd : FsForest) (fuel : Nat)
    (hnd : (flat.map Prod.fst).Nodup) (hcl : SnapClosed flat)
    (hr : (r, k, FsTree.node cs) ∈ flat)
    (hok : FsForest.okB isFileT cs = true)
    (hh : cs.height + 1 ≤ fuel)
    (hdst : (dst, kd, FsTree.node csd) ∈ flat) :
    ∃ pre, move_files_between (treeBackend flat) (treeBackend flat) fuel [r] dst
        = (pre ++ (bfsList flat fuel [r]).reverse.map (Ev.removeDir .fromB), .ok ())
      ∧ ∀ e ∈ pre, e.isRemDirEv = false := by
  have hlr := lookupS_of_mem hnd hr
  have hld := lookupS_of_mem hnd hdst
  obtain ⟨tr, heqLoop, hnr⟩ := moveBetweenLoop_ok fuel [(r, "/")] [] flat dst k hnd hcl
    (by intro d hd; simp at hd; subst hd; exact ⟨cs, hr, hok, hh⟩)
  refine ⟨Ev.qexists .toB dst :: Ev.getFileType .fromB r :: tr, ?_, ?_⟩
  · simp [move_files_between, Backend.existsT, tb_exists_true hld, moveBetweenTop,
      Backend.getFileTypeT, tb_get_file_type hlr, bindE, heqLoop, removePhase_tb]
  · intro e he
    rcases List.mem_cons.mp he with rfl | he2
    · rfl
    rcases List.mem_cons.mp he2 with rfl | he3
    · rfl
    exact hnr e he3

/-- C7: for every directory tree in a well-formed snapshot, `move_files`
and `move_files_between` issue every `remove_dir` after the whole
transfer traversal (the trace is a removal-free prefix followed by pure
`remove_dir` calls), the removals being exactly the discovered
directories in reverse breadth-first discovery order; that discovery
order contains the root and every descendant directory of any discovered
directory, and a descendant is always removed strictly before its
ancestor. -/
theorem C7_move_source_dirs_removed_post_order
    (flat : Snap) (r dst : String) (k kd : Nat) (cs csd : FsForest) (fuel : Nat)
    (hWF : SnapWF flat)
    (hr : (r, k, FsTree.node cs) ∈ flat)
    (hok : FsForest.okB isFileT cs = true)
    (hh : cs.height + 1 ≤ fuel)
    (hdst : (dst, kd, FsTree.node csd) ∈ flat) :
    (∃ pre, move_files (treeBackend flat) fuel [r] dst
        = (pre ++ (bfsList flat fuel [r]).reverse.map (Ev.removeDir .fromB), .ok ())
      ∧ ∀ e ∈ pre, e.isRemDirEv = false) ∧
    (∃ pre, move_files_between (treeBackend flat) (treeBackend flat) fuel [r] dst
        = (pre ++ (bfsList flat fuel [r]).reverse.map (Ev.removeDir .fromB), .ok ())
      ∧ ∀ e ∈ pre, e.isRemDirEv = false) ∧
    r ∈ bfsList flat fuel [r] ∧
    (∀ d1 d2, d1 ∈ bfsList flat fuel [r] → Desc flat d1 d2 →
      d2 ∈ bfsList flat fuel [r]) ∧
    (∀ d1 d2, d1 ∈ bfsList flat fuel [r] → Desc flat d1 d2 →
      ∃ l1 l2, (bfsList flat fuel [r]).reverse = l1 ++ d2 :: l2 ∧ d1 ∈ l2) := by
  obtain ⟨hnd, hcl⟩ := hWF
  have hQ : DirsOkAt flat isFileT fuel k [r] := by
    intro d hd
    simp at hd
    subst hd
    exact ⟨cs, hr, hok, hh⟩
  refine ⟨move_files_tb flat r dst k kd cs csd fuel hnd hcl hr hok hh hdst,
    move_files_between_tb flat r dst k kd cs csd fuel hnd hcl hr hok hh hdst, ?_, ?_, ?_⟩
  · cases fuel with
    | zero => omega
    | succ f => exact mem_bfs_of_mem_queue (by simp)
  · intro d1 d2 h1 hdesc
    exact bfs_complete fuel [r] k flat hnd hcl hQ d1 h1 d2 hdesc
  · intro d1 d2 h1 hdesc
    obtain ⟨k1, cs1, hm1, hk1⟩ := bfs_entry_depth fuel [r] k flat hnd hcl hQ d1 h1
    obtain ⟨k2, cs2, hm2, hk2⟩ := Desc_entry_depth hnd hcl hdesc hm1
    have h2 : d2 ∈ bfsList flat fuel [r] :=
      bfs_complete fuel [r] k flat hnd hcl hQ d1 h1 d2 hdesc
    have hpw := bfs_pairwise_depth fuel [r] k flat hnd hcl hQ
    have hlt : depthAt flat d1 < depthAt flat d2 := by
      rw [depthAt_of_mem hnd hm1, depthAt_of_mem hnd hm2]
      omega
    obtain ⟨l1, l2, heq, hm⟩ := pairwise_split_of_lt hpw h1 h2 hlt
    exact reverse_split heq hm

/-- C7 witness: the statement instantiated at the /a ⊃ /a/b ⊃ /a/b/f
snapshot with destination /dst: the removal phase is a suffix of the
trace and /a/b is removed before /a. -/
theorem C7_move_source_dirs_witness :
    (∃ pre, move_files (treeBackend snapAD) 2 ["/a"] "/dst"
        = (pre ++ (bfsList snapAD 2 ["/a"]).reverse.map (Ev.removeDir .fromB), .ok ())
      ∧ ∀ e ∈ pre, e.isRemDirEv = false) ∧
    (∃ l1 l2, (bfsList snapAD 2 ["/a"]).reverse = l1 ++ "/a/b" :: l2 ∧ "/a" ∈ l2) :=
  ⟨(C7_move_source_dirs_removed_post_order snapAD "/a" "/dst" 0 0
      (.cons "b" dirB .nil) .nil 2 (by decide) (by decide) (by decide) (by decide)
      (by decide)).1,
   (C7_move_source_dirs_removed_post_order snapAD "/a" "/dst" 0 0
      (.cons "b" dirB .nil) .nil 2 (by decide) (by decide) (by decide) (by decide)
      (by decide)).2.2.2.2 "/a" "/a/b" (by decide) (Desc.child (by decide))⟩

/-- C2 witness: the statement instantiated at the /a ⊃ /a/b ⊃ /a/b/f
snapshot (one 3-byte file): the total is 3; and at the same snapshot
with every `read_dir` failing, the error is returned with no sum. -/
theorem C2_calculate_total_size_witness :
    (calculate_total_size (treeBackend snapA) 2 ["/a"]).2 = .ok 3 ∧
    (calculate_total_size failReadBackend 1 ["/a"]).2 = .error (.StdIo .other) :=
  ⟨(C2_calculate_total_size snapA [("/a", 0, dirA)] 2 (by decide) (by decide) (by decide)
      (by decide)).1,
    (C2_calculate_total_size snapA [("/a", 0, dirA)] 2 (by decide) (by decide) (by decide)
      (by decide)).2.2.2.2 failReadBackend ["/a"] 0 [rootFile ("/a", 0, dirA)] [] [] "/a"
      (.StdIo .other) (by decide) (by decide) (by intro x hx; cases hx) rfl⟩

/-- C8 witness: the statement instantiated at the empty snapshot backend
(where /dst does not exist). -/
theorem C8_nonexistent_destination_witness :
    move_files (treeBackend []) 1 ["/x"] "/dst"
      = ([.qexists .fromB "/dst"], .error (.FileNonexistent "/dst")) ∧
    copy_files_between_with_progress (treeBackend []) (treeBackend []) 1 ["/x"] "/dst"
        skipHandler
      = ([.qexists .toB "/dst"], .error (.FileNonexistent "/dst")) :=
  ⟨(C8_nonexistent_destination_aborts_all_variants (treeBackend []) (treeBackend [])
      ["/x"] "/dst" 1 skipHandler rfl).1,
    (C8_nonexistent_destination_aborts_all_variants (treeBackend []) (treeBackend [])
      ["/x"] "/dst" 1 skipHandler rfl).2.2.2.2.2.2.2⟩

end AFS
